import Mathlib

/-!
Verification of the geometry-normalization and axis-graph construction engine
of the `dials2imgcif` converter (`Tools/dials2imgcif.py`).

The Python source manipulates 3-vectors and rotations through numpy/scipy.
We embed vectors over the rationals; `scipy.spatial.transform.Rotation`,
applied in the source only through `align_vectors` on a single pair of unit
vectors, is embedded as the shortest-arc (Rodrigues) rotation matrix taking
the source vector to the target vector, which is the rotation scipy returns
for a single weighted pair of unit vectors.  `numpy.linalg.norm` appears in
the source only on vectors whose squared norm is a perfect rational square
(cross products of rotated orthonormal panel axes), so normalization is
embedded through an exact integer square root.
-/

namespace DialsToImgcif

/-- A 3-vector with rational components. -/
structure Vec3 where
  x : ℚ
  y : ℚ
  z : ℚ
deriving DecidableEq, Repr

def vadd (a b : Vec3) : Vec3 := ⟨a.x + b.x, a.y + b.y, a.z + b.z⟩

def vsub (a b : Vec3) : Vec3 := ⟨a.x - b.x, a.y - b.y, a.z - b.z⟩

def smul (q : ℚ) (v : Vec3) : Vec3 := ⟨q * v.x, q * v.y, q * v.z⟩

def vneg (v : Vec3) : Vec3 := ⟨-v.x, -v.y, -v.z⟩

def dot (a b : Vec3) : ℚ := a.x * b.x + a.y * b.y + a.z * b.z

/-- `numpy.cross` on 3-vectors. -/
def cross (a b : Vec3) : Vec3 :=
  ⟨a.y * b.z - a.z * b.y, a.z * b.x - a.x * b.z, a.x * b.y - a.y * b.x⟩

/-- Squared Euclidean norm. -/
def normSq (v : Vec3) : ℚ := dot v v

/-- Exact rational square root: `ratSqrt q = Real.sqrt q` whenever `q` is the
square of a rational, which is the only regime in which the source's
`numpy.linalg.norm` is evaluated in the theorems below. -/
def ratSqrt (q : ℚ) : ℚ := (Int.sqrt q.num : ℚ) / (Nat.sqrt q.den : ℚ)

/-- `v / numpy.linalg.norm(v)`. -/
def vnormalize (v : Vec3) : Vec3 := smul (ratSqrt (normSq v))⁻¹ v

/-- A 3x3 matrix as three rows. -/
structure Mat3 where
  r1 : Vec3
  r2 : Vec3
  r3 : Vec3
deriving DecidableEq, Repr

def mulVec (m : Mat3) (v : Vec3) : Vec3 := ⟨dot m.r1 v, dot m.r2 v, dot m.r3 v⟩

def idMat : Mat3 := ⟨⟨1,0,0⟩, ⟨0,1,0⟩, ⟨0,0,1⟩⟩

def matAdd (a b : Mat3) : Mat3 := ⟨vadd a.r1 b.r1, vadd a.r2 b.r2, vadd a.r3 b.r3⟩

def matSmul (q : ℚ) (m : Mat3) : Mat3 := ⟨smul q m.r1, smul q m.r2, smul q m.r3⟩

def matMul (a b : Mat3) : Mat3 :=
  ⟨⟨dot a.r1 ⟨b.r1.x, b.r2.x, b.r3.x⟩, dot a.r1 ⟨b.r1.y, b.r2.y, b.r3.y⟩,
    dot a.r1 ⟨b.r1.z, b.r2.z, b.r3.z⟩⟩,
   ⟨dot a.r2 ⟨b.r1.x, b.r2.x, b.r3.x⟩, dot a.r2 ⟨b.r1.y, b.r2.y, b.r3.y⟩,
    dot a.r2 ⟨b.r1.z, b.r2.z, b.r3.z⟩⟩,
   ⟨dot a.r3 ⟨b.r1.x, b.r2.x, b.r3.x⟩, dot a.r3 ⟨b.r1.y, b.r2.y, b.r3.y⟩,
    dot a.r3 ⟨b.r1.z, b.r2.z, b.r3.z⟩⟩⟩

/-- Cross-product matrix: `mulVec (crossMat w) v = cross w v`. -/
def crossMat (w : Vec3) : Mat3 :=
  ⟨⟨0, -w.z, w.y⟩, ⟨w.z, 0, -w.x⟩, ⟨-w.y, w.x, 0⟩⟩

/-- Embedding of `scipy...Rotation.align_vectors([t], [s])` for one pair of
unit vectors: the shortest-arc rotation taking `s` to `t`, via the Rodrigues
construction `I + K + K^2/(1+c)` with `K` the cross matrix of `s x t` and
`c = s . t` (defined when `c` is not `-1`). -/
def alignVectors (t s : Vec3) : Mat3 :=
  let v := cross s t
  let c := dot s t
  matAdd (matAdd idMat (crossMat v))
    (matSmul (1 / (1 + c)) (matMul (crossMat v) (crossMat v)))

theorem Vec3.ext_iff' {a b : Vec3} : a = b ↔ a.x = b.x ∧ a.y = b.y ∧ a.z = b.z := by
  constructor
  · rintro rfl; exact ⟨rfl, rfl, rfl⟩
  · rintro ⟨hx, hy, hz⟩; cases a; cases b; simp_all

theorem mulVec_matAdd (a b : Mat3) (v : Vec3) :
    mulVec (matAdd a b) v = vadd (mulVec a v) (mulVec b v) := by
  simp only [mulVec, matAdd, vadd, dot, Vec3.ext_iff']
  refine ⟨by ring, by ring, by ring⟩

theorem mulVec_matSmul (q : ℚ) (m : Mat3) (v : Vec3) :
    mulVec (matSmul q m) v = smul q (mulVec m v) := by
  simp only [mulVec, matSmul, smul, dot, Vec3.ext_iff']
  refine ⟨by ring, by ring, by ring⟩

theorem mulVec_idMat (v : Vec3) : mulVec idMat v = v := by
  simp only [mulVec, idMat, dot, Vec3.ext_iff']
  refine ⟨by ring, by ring, by ring⟩

theorem mulVec_crossMat (w v : Vec3) : mulVec (crossMat w) v = cross w v := by
  simp only [mulVec, crossMat, cross, dot, Vec3.ext_iff']
  refine ⟨by ring, by ring, by ring⟩

theorem mulVec_matMul (a b : Mat3) (v : Vec3) :
    mulVec (matMul a b) v = mulVec a (mulVec b v) := by
  simp only [mulVec, matMul, dot, Vec3.ext_iff']
  refine ⟨by ring, by ring, by ring⟩

/-- Vector triple product: `(s x t) x s = (s.s) t - (t.s) s`. -/
theorem cross_cross_self (s t : Vec3) :
    cross (cross s t) s = vsub (smul (dot s s) t) (smul (dot t s) s) := by
  simp only [cross, vsub, smul, dot, Vec3.ext_iff']
  refine ⟨by ring, by ring, by ring⟩

/-- Double application of the cross matrix of `s x t` to `s`. -/
theorem cross_cross_cross_self (s t : Vec3) :
    cross (cross s t) (cross (cross s t) s) =
      smul (dot s t * dot s t - dot s s * dot t t) s := by
  simp only [cross, smul, dot, Vec3.ext_iff']
  refine ⟨by ring, by ring, by ring⟩

/-- The shortest-arc rotation really aligns: for unit `s`, `t` that are not
antiparallel, `alignVectors t s` maps `s` exactly to `t`.  This is the exact
counterpart of the source's
`np.testing.assert_allclose(axis_rotation.apply(primary_axis), [1,0,0])`. -/
theorem alignVectors_apply (s t : Vec3) (hs : normSq s = 1) (ht : normSq t = 1)
    (hc : 1 + dot s t ≠ 0) : mulVec (alignVectors t s) s = t := by
  have hss : dot s s = 1 := hs
  have htt : dot t t = 1 := ht
  rw [alignVectors, mulVec_matAdd, mulVec_matAdd, mulVec_idMat, mulVec_matSmul,
    mulVec_matMul, mulVec_crossMat, mulVec_crossMat,
    cross_cross_cross_self, cross_cross_self, hss, htt]
  have hts : dot t s = dot s t := by simp only [dot]; ring
  rw [hts]
  simp only [vadd, vsub, smul, Vec3.ext_iff']
  set c := dot s t with hcdef
  refine ⟨?_, ?_, ?_⟩ <;> field_simp <;> ring

/-! ## Data model

The dxtbx instrument-model objects consumed by the converter, re-expressed
as plain records (per the tagged-union design note of the converter). -/

/-- Python exception classes raised by the converter. -/
inductive Err where
  | assertionError (msg : String)
  | valueError (msg : String)
  | indexError
deriving DecidableEq, Repr

/-- DIALS goniometer model.  A `MultiAxisGoniometer` carries axis names,
directions, this experiment's angle settings and the scan-axis index; any
other goniometer exposes a single rotation axis. -/
inductive Gonio where
  | multiAxis (names : List String) (axes : List Vec3) (angles : List ℚ) (scanAxis : ℕ)
  | singleAxis (rotationAxis : Vec3)
deriving DecidableEq, Repr

def Gonio.isMultiAxis : Gonio → Bool
  | .multiAxis _ _ _ _ => true
  | .singleAxis _ => false

structure Panel where
  name : String
  fastAxis : Vec3
  slowAxis : Vec3
  origin : Vec3
  pixelSize : ℚ × ℚ
  imageSize : ℕ × ℕ
deriving DecidableEq, Repr

structure Scan where
  oscStart : ℚ
  oscStep : ℚ
  numImages : ℕ
  exposureTimes : List ℚ
deriving DecidableEq, Repr

/-- HDF5 master-file content (the h5py collaborator's view of `/entry/data`):
named members that are external links (target file name, object path in the
target, frame count of the dataset) or internal datasets (object path is the
member's own name under `/entry/data`). -/
inductive H5Entry where
  | externalLink (fileName objPath : String) (nFrames : ℕ)
  | internal (nFrames : ℕ)
deriving DecidableEq, Repr

structure Expt where
  goniometer : Gonio
  detector : List Panel
  scan : Scan
  wavelength : ℚ
  /-- `expt.imageset.get_template()`: the complete local path template. -/
  imageTemplate : String
  /-- whether the dxtbx format class is a subclass of FormatSMV. -/
  isSMVFormat : Bool
  /-- `expt.imageset.data().has_single_file_reader()`. -/
  hasSingleFileReader : Bool
  /-- members of `/entry/data` of the HDF5 master file at `imageTemplate`. -/
  h5Data : List (String × H5Entry)
deriving DecidableEq, Repr

/-- One entry of the goniometer axis table built by `get_gon_axes`: the axis
direction, per-scan angle settings (the key `vals`, absent in the single-axis
branch), and the `next` dependency pointer with `"."` as the sentinel. -/
structure GonAxisInfo where
  axis : Vec3
  vals : Option (List ℚ)
  next : String
deriving DecidableEq, Repr

/-- `GONIO_DEFAULT_AXIS`: the name used when the goniometer has one nameless
axis. -/
def gonioDefaultAxis : String := "Omega"

/-- `get_gon_axes`: the goniometer axis table from the experiment list.  In
the multi-axis branch the source asserts that every experiment has a
multi-axis goniometer with the same axis names; the single-axis branch
registers the lone rotation axis under the default name with no `vals`. -/
def get_gon_axes (expts : List Expt) : Except Err (List (String × GonAxisInfo)) :=
  match expts with
  | [] => .error .indexError
  | e0 :: rest =>
    match e0.goniometer with
    | .multiAxis names axes _ _ =>
      if rest.all (fun e => match e.goniometer with
          | .multiAxis ns _ _ _ => ns == names
          | .singleAxis _ => false) then
        .ok ((List.range names.length).map (fun i =>
          (names.getD i "",
           { axis := axes.getD i ⟨0,0,0⟩,
             vals := some (expts.map (fun e => match e.goniometer with
               | .multiAxis _ _ angs _ => angs.getD i 0
               | .singleAxis _ => 0)),
             next := if i = names.length - 1 then "." else names.getD (i+1) "" })))
      else .error (.assertionError "Goniometer type varies or axis names differ")
    | .singleAxis ax =>
      .ok [(gonioDefaultAxis, { axis := ax, vals := none, next := "." })]

/-- `np.allclose` on scalars with the default tolerances rtol=1e-5,
atol=1e-8. -/
def ratClose (a b : ℚ) : Bool := decide (|a - b| ≤ 1/100000000 + (1/100000) * |b|)

/-- `np.allclose` componentwise on 3-vectors. -/
def allclose (a b : Vec3) : Bool := ratClose a.x b.x && ratClose a.y b.y && ratClose a.z b.z

def e1 : Vec3 := ⟨1, 0, 0⟩

/-- The primary-axis checks at the head of `get_axes_info`: exactly one
goniometer axis whose `next` is the sentinel must exist (else
AssertionError), and its z component must not exceed 1e-4 in absolute value
(else ValueError).  Returns the primary axis direction. -/
def checkPrimaryAxis (gonAxes : List (String × GonAxisInfo)) : Except Err Vec3 :=
  let primary := gonAxes.filter (fun kv => decide (kv.2.next = "."))
  match primary with
  | [kv] =>
    if decide (1/10000 < |kv.2.axis.z|) then
      .error (.valueError "Primary axis had an unexpected z component")
    else .ok kv.2.axis
  | l => .error (.assertionError (toString l.length ++ " != 1 primary goniometer axes"))

/-- The global frame rotation of `get_axes_info`: identity when the primary
axis is already (numerically) the reference direction `(1,0,0)`, otherwise
the rotation aligning it to the reference direction. -/
def frameRotation (primary : Vec3) : Mat3 :=
  if allclose primary e1 then idMat else alignVectors e1 primary

/-- `np.testing.assert_allclose(axis_rotation.apply(primary_axis), [1,0,0],
atol=1e-8)` with the default rtol=1e-7 (relative to the desired value). -/
def assertAligned (rot : Mat3) (p : Vec3) : Bool :=
  let v := mulVec rot p
  decide (|v.x - 1| ≤ 1/100000000 + 1/10000000 ∧
          |v.y| ≤ 1/100000000 ∧ |v.z| ≤ 1/100000000)

/-- Un-normalized panel normal in the rotated frame: cross product of the
rotated fast and slow axes. -/
def panelNormal (rot : Mat3) (p : Panel) : Vec3 :=
  cross (mulVec rot p.fastAxis) (mulVec rot p.slowAxis)

def findPerpAux (rot : Mat3) : List Panel → ℕ → Option ℕ
  | [], _ => none
  | p :: ps, i =>
    if decide (|(vnormalize (panelNormal rot p)).x| ≤ 1/10000) then some i
    else findPerpAux rot ps (i+1)

/-- `find_perp_panel`: index of the first panel whose unit normal has x
component within 1e-4 of zero (`math.isclose(. , 0.0, abs_tol=0.0001)`). -/
def find_perp_panel (det : List Panel) (rot : Mat3) : Option ℕ :=
  findPerpAux rot det 0

/-- Result of `get_two_theta`.  The Python function returns a pair
`(angle_degrees, axis | None)`; the angle and unit axis of the non-aligned
case are irrational functions (`arccos`, normalized rotation vector) of the
underlying rotation, so that case is represented by the rotation matrix
itself, from which the returned angle (its rotation angle) and axis (its
rotation axis) derive. -/
inductive TthInfo where
  | aligned
  | rotated (m : Mat3)
deriving DecidableEq, Repr

/-- The reference direction `(0,0,-1)` opposite to the beam. -/
def zNegRef : Vec3 := ⟨0, 0, -1⟩

/-- `if p_onrm[2] > 0: p_onrm *= -1` - negate a normal pointing toward the
sample. -/
def negIfTowardSample (n : Vec3) : Vec3 := if decide (0 < n.z) then vneg n else n

/-- The canonicalized unit panel normal of `get_two_theta`: normalized cross
product of the rotated fast and slow axes, negated if pointing toward the
sample. -/
def canonNormal (rot : Mat3) (p : Panel) : Vec3 :=
  negIfTowardSample (vnormalize (panelNormal rot p))

/-- `get_two_theta`: the rotation making the perpendicular panel's normal
parallel to the beam.  Returns `(0.0, None)` (here: `aligned`) when the
canonicalized normal is within 1e-4 of `(0,0,-1)`, else the aligning
rotation.  Indexing the detector with a failed panel search raises. -/
def get_two_theta (det : List Panel) (rot : Mat3) : Except Err TthInfo :=
  match find_perp_panel det rot with
  | none => .error .indexError
  | some pp =>
    match det.get? pp with
    | none => .error .indexError
    | some panel =>
      let n := canonNormal rot panel
      if decide (normSq (vsub n zNegRef) < 1/100000000) then .ok .aligned
      else .ok (.rotated (alignVectors zNegRef n))

/-- `get_distance`: absolute projection of the rotated panel origin onto the
unit panel normal. -/
def get_distance (p : Panel) (rot : Mat3) : ℚ :=
  |dot (mulVec rot p.origin) (vnormalize (panelNormal rot p))|

/-- The detector axis table built by `get_det_axes`: the optional `Two_Theta`
rotation axis (represented by the rotation of the first non-aligned
snapshot, with per-scan values given by each snapshot's `TthInfo`), and the
per-scan values of the always-present `Trans` translation axis along
`(0,0,-1)` (which depends on `Two_Theta` when present). -/
structure DetAxes where
  twoTheta : Option (Mat3 × List TthInfo)
  transVals : List ℚ
deriving DecidableEq, Repr

def firstRotated : List TthInfo → Option Mat3
  | [] => none
  | .aligned :: rest => firstRotated rest
  | .rotated m :: _ => some m

/-- Evaluate a list comprehension whose body may raise, stopping at the
first raised exception. -/
def mapExcept (f : α → Except Err β) : List α → Except Err (List β)
  | [] => .ok []
  | a :: as =>
    match f a with
    | .error er => .error er
    | .ok b =>
      match mapExcept f as with
      | .error er => .error er
      | .ok bs => .ok (b :: bs)

/-- `get_det_axes`: fails when no panel of the first experiment's detector is
perpendicular to the beam; otherwise computes two-theta for every snapshot
(emitting a `Two_Theta` axis only if some snapshot is non-aligned) and the
per-scan `Trans` distances of the perpendicular panel. -/
def get_det_axes (expts : List Expt) (rot : Mat3) : Except Err DetAxes :=
  match expts with
  | [] => .error .indexError
  | e0 :: _ =>
    match find_perp_panel e0.detector rot with
    | none => .error (.assertionError
        "Unable to find a panel perpendicular to the beam at tth = 0")
    | some pp =>
      match mapExcept (fun e => get_two_theta e.detector rot) expts with
      | .error er => .error er
      | .ok axisInfo =>
        match mapExcept (fun e =>
            match e.detector.get? pp with
            | some p => Except.ok (get_distance p rot)
            | none => Except.error Err.indexError) expts with
        | .error er => .error er
        | .ok dists =>
          .ok { twoTheta := (firstRotated axisInfo).map (fun m => (m, axisInfo)),
                transVals := dists }

/-- One per-panel pixel axis entry of `get_srf_axes`. -/
structure SrfAxis where
  axis : Vec3
  next : String
  origin : Vec3
  pixSize : ℚ
  numPix : ℕ
  prec : ℕ
  element : ℕ
deriving DecidableEq, Repr

/-- `np.around`: round half to even. -/
def roundHalfEven (q : ℚ) : ℤ :=
  let f := ⌊q⌋
  let r := q - f
  if r < 1/2 then f else if 1/2 < r then f + 1 else if Even f then f else f + 1

/-- `np.around(q, decimals=3)`. -/
def roundTo3 (q : ℚ) : ℚ := (roundHalfEven (q * 1000) : ℚ) / 1000

def roundVec3 (v : Vec3) : Vec3 := ⟨roundTo3 v.x, roundTo3 v.y, roundTo3 v.z⟩

/-- Per-panel axis entries for one panel (1-based element index `i`), as
produced inside the loop of `get_srf_axes`: rotated fast/slow/origin, with
the additional un-rotation by the two-theta rotation (and rounding to 3
decimals) when two-theta is non-zero, and the z component of the origin
dropped. -/
def srfPanelAxes (rot : Mat3) (tth : TthInfo) (i : ℕ) (panel : Panel) :
    List (String × SrfAxis) :=
  let fast0 := mulVec rot panel.fastAxis
  let slow0 := mulVec rot panel.slowAxis
  let origin0 := mulVec rot panel.origin
  let fast := match tth with
    | .aligned => fast0
    | .rotated m => roundVec3 (mulVec m fast0)
  let slow := match tth with
    | .aligned => slow0
    | .rotated m => roundVec3 (mulVec m slow0)
  let origin1 := match tth with
    | .aligned => origin0
    | .rotated m => roundVec3 (mulVec m origin0)
  let origin := Vec3.mk origin1.x origin1.y 0
  [("ele" ++ toString i ++ "_fast",
    { axis := fast, next := "Trans", origin := origin,
      pixSize := panel.pixelSize.1, numPix := panel.imageSize.1,
      prec := 1, element := i }),
   ("ele" ++ toString i ++ "_slow",
    { axis := slow, next := "ele" ++ toString i ++ "_fast",
      origin := ⟨0, 0, 0⟩,
      pixSize := panel.pixelSize.2, numPix := panel.imageSize.2,
      prec := 2, element := i })]

/-- `get_srf_axes`: per-panel pixel axis directions at two-theta zero.  The
source asserts panel names are identical across experiments. -/
def get_srf_axes (expts : List Expt) (rot : Mat3) :
    Except Err (List (String × SrfAxis)) :=
  match expts with
  | [] => .error .indexError
  | e0 :: rest =>
    if rest.all (fun e => e.detector.map Panel.name == e0.detector.map Panel.name) then
      match get_two_theta e0.detector rot with
      | .error er => .error er
      | .ok tth =>
        .ok ((e0.detector.enum.map
          (fun ip => srfPanelAxes rot tth (ip.1 + 1) ip.2)).flatten)
    else .error (.assertionError "panel names differ between experiments")

def rotateGonAxes (rot : Mat3) (ga : List (String × GonAxisInfo)) :
    List (String × GonAxisInfo) :=
  ga.map (fun kv => (kv.1, { kv.2 with axis := mulVec rot kv.2.axis }))

/-- The frame-rotation step of `get_axes_info`: the identity when the
primary axis is numerically `(1,0,0)`, else the aligning rotation guarded by
the source's `assert_allclose` round-trip check. -/
def frameRotationChecked (primary : Vec3) : Except Err Mat3 :=
  if allclose primary e1 then .ok idMat
  else
    if assertAligned (alignVectors e1 primary) primary then .ok (alignVectors e1 primary)
    else .error (.assertionError "align_vectors result check failed")

/-- `get_axes_info`: the full geometry pipeline.  Builds the goniometer axis
table, checks the primary axis, computes the global frame rotation, applies
it to every goniometer axis direction, and computes the detector and surface
axes in the rotated frame. -/
def get_axes_info (expts : List Expt) :
    Except Err (List (String × GonAxisInfo) × DetAxes × List (String × SrfAxis)) :=
  match get_gon_axes expts with
  | .error er => .error er
  | .ok gonAxes =>
    match checkPrimaryAxis gonAxes with
    | .error er => .error er
    | .ok primary =>
      match frameRotationChecked primary with
      | .error er => .error er
      | .ok axisRotation =>
        match get_det_axes expts axisRotation with
        | .error er => .error er
        | .ok detAxes =>
          match get_srf_axes expts axisRotation with
          | .error er => .error er
          | .ok srfAxes => .ok (rotateGonAxes axisRotation gonAxes, detAxes, srfAxes)

/-! ## Support lemmas for the geometry theorems -/

theorem ratSqrt_one : ratSqrt 1 = 1 := by
  norm_num [ratSqrt, Rat.num_one, Rat.den_one, Int.sqrt]

theorem vnormalize_unit {v : Vec3} (h : normSq v = 1) : vnormalize v = v := by
  simp [vnormalize, h, ratSqrt_one, smul, Vec3.ext_iff']

theorem normSq_vneg (v : Vec3) : normSq (vneg v) = normSq v := by
  simp only [normSq, vneg, dot]; ring

theorem negIfTowardSample_z_nonpos (n : Vec3) : (negIfTowardSample n).z ≤ 0 := by
  unfold negIfTowardSample
  split
  · next h => simp only [vneg]; simp only [decide_eq_true_eq] at h; linarith
  · next h => simp only [decide_eq_true_eq, not_lt] at h; exact h

theorem normSq_negIfTowardSample (n : Vec3) :
    normSq (negIfTowardSample n) = normSq n := by
  unfold negIfTowardSample
  split
  · rw [normSq_vneg]
  · rfl

/-- The canonicalized panel normal never points toward the sample. -/
theorem canonNormal_z_nonpos (rot : Mat3) (p : Panel) : (canonNormal rot p).z ≤ 0 :=
  negIfTowardSample_z_nonpos _

theorem canonNormal_normSq {rot : Mat3} {p : Panel}
    (h : normSq (panelNormal rot p) = 1) : normSq (canonNormal rot p) = 1 := by
  unfold canonNormal
  rw [vnormalize_unit h, normSq_negIfTowardSample]
  exact h

theorem normSq_zNegRef : normSq zNegRef = 1 := by
  simp [normSq, zNegRef, dot]

/-- `checkPrimaryAxis` on a unique in-plane primary axis succeeds with that
axis. -/
theorem checkPrimaryAxis_ok {gonAxes : List (String × GonAxisInfo)}
    {kv : String × GonAxisInfo}
    (h : gonAxes.filter (fun kv => decide (kv.2.next = ".")) = [kv])
    (hz : |kv.2.axis.z| ≤ 1/10000) :
    checkPrimaryAxis gonAxes = .ok kv.2.axis := by
  unfold checkPrimaryAxis
  rw [h]
  simp only [decide_eq_true_eq]
  rw [if_neg (by exact fun hlt => absurd hz (not_le.mpr hlt))]

/-- `claim C7` : the geometry normalizer raises an AssertionError when the
number of goniometer axes whose `depends_on` is the sentinel differs from
one, a (distinct) ValueError when the unique base axis has |z| > 1e-4, and
passes both checks otherwise; the check errors propagate to `get_axes_info`
unchanged. -/
theorem claim_C7 : ∀ gonAxes : List (String × GonAxisInfo),
    ((gonAxes.filter (fun kv => decide (kv.2.next = "."))).length ≠ 1 →
      checkPrimaryAxis gonAxes = .error (.assertionError
        (toString (gonAxes.filter (fun kv => decide (kv.2.next = "."))).length ++
          " != 1 primary goniometer axes"))) ∧
    (∀ kv, gonAxes.filter (fun kv => decide (kv.2.next = ".")) = [kv] →
      1/10000 < |kv.2.axis.z| →
      checkPrimaryAxis gonAxes =
        .error (.valueError "Primary axis had an unexpected z component")) ∧
    (∀ kv, gonAxes.filter (fun kv => decide (kv.2.next = ".")) = [kv] →
      |kv.2.axis.z| ≤ 1/10000 →
      checkPrimaryAxis gonAxes = .ok kv.2.axis) ∧
    (∀ expts ga er, get_gon_axes expts = .ok ga →
      checkPrimaryAxis ga = .error er → get_axes_info expts = .error er) := by
  intro gonAxes
  refine ⟨?_, ?_, ?_, ?_⟩
  · intro hlen
    unfold checkPrimaryAxis
    rcases hfil : gonAxes.filter (fun kv => decide (kv.2.next = ".")) with _ | ⟨kv, _ | ⟨kv2, rest⟩⟩
    · simp [hfil]
    · rw [hfil] at hlen; simp at hlen
    · simp [hfil]
  · intro kv hfil hz
    unfold checkPrimaryAxis
    rw [hfil]
    simp only [decide_eq_true_eq]
    rw [if_pos hz]
  · intro kv hfil hz
    exact checkPrimaryAxis_ok hfil hz
  · intro expts ga er hga hchk
    simp [get_axes_info, hga, hchk]

theorem mapExcept_forall_ok {α β : Type} {f : α → Except Err β} {b : β}
    (l : List α) (h : ∀ a ∈ l, f a = .ok b) :
    mapExcept f l = .ok (List.replicate l.length b) := by
  induction l with
  | nil => rfl
  | cons a as ih =>
    have ha : f a = .ok b := h a (List.mem_cons_self a as)
    have has : mapExcept f as = .ok (List.replicate as.length b) :=
      ih (fun x hx => h x (List.mem_cons_of_mem a hx))
    simp [mapExcept, ha, has, List.replicate_succ]

theorem firstRotated_replicate_aligned (n : ℕ) :
    firstRotated (List.replicate n .aligned) = none := by
  induction n with
  | zero => rfl
  | succ m ih => simpa [List.replicate_succ, firstRotated] using ih

/-- `claim C2` : when the canonicalized normal of the perpendicular panel is
within 1e-4 (Euclidean norm of the difference, i.e. squared norm below 1e-8)
of the reference direction `(0,0,-1)`, `get_two_theta` returns the aligned
result (Python: angle exactly `0.0`, axis `None`); when every snapshot is
aligned, `get_det_axes` emits no `Two_Theta` axis.  Otherwise the returned
rotation maps the canonicalized panel normal exactly to `(0,0,-1)` (hence in
particular within 1e-6). -/
theorem claim_C2 :
    (∀ det rot pp panel, find_perp_panel det rot = some pp →
      det.get? pp = some panel →
      ((normSq (vsub (canonNormal rot panel) zNegRef) < 1/100000000 →
        get_two_theta det rot = .ok .aligned) ∧
       (¬ normSq (vsub (canonNormal rot panel) zNegRef) < 1/100000000 →
        get_two_theta det rot =
          .ok (.rotated (alignVectors zNegRef (canonNormal rot panel))) ∧
        (normSq (panelNormal rot panel) = 1 →
          mulVec (alignVectors zNegRef (canonNormal rot panel))
            (canonNormal rot panel) = zNegRef)))) ∧
    (∀ expts rot da, (∀ e ∈ expts, get_two_theta e.detector rot = .ok .aligned) →
      get_det_axes expts rot = .ok da → da.twoTheta = none) := by
  constructor
  · intro det rot pp panel hfind hget
    constructor
    · intro hclose
      simp only [get_two_theta, hfind, hget, decide_eq_true_eq]
      rw [if_pos hclose]
    · intro hfar
      constructor
      · simp only [get_two_theta, hfind, hget, decide_eq_true_eq]
        rw [if_neg hfar]
      · intro hunit
        refine alignVectors_apply _ _ (canonNormal_normSq hunit) normSq_zNegRef ?_
        have hz : (canonNormal rot panel).z ≤ 0 := canonNormal_z_nonpos rot panel
        have : dot (canonNormal rot panel) zNegRef = -(canonNormal rot panel).z := by
          simp [dot, zNegRef]
        rw [this]
        intro habs
        have : (canonNormal rot panel).z = 1 := by linarith
        linarith
  · intro expts rot da hall hok
    rcases expts with _ | ⟨e0, rest⟩
    · simp [get_det_axes] at hok
    · simp only [get_det_axes] at hok
      rcases hperp : find_perp_panel e0.detector rot with _ | pp
      · rw [hperp] at hok; simp at hok
      · rw [hperp] at hok
        rw [mapExcept_forall_ok (e0 :: rest) hall] at hok
        simp only [firstRotated_replicate_aligned, Option.map_none'] at hok
        split at hok
        · simp at hok
        · cases hok
          rfl

/-! ## Concrete single-axis example

The end-to-end scenario of the specification: a single-axis goniometer with
base direction `(0,1,0)`, one panel whose normal is already anti-parallel to
the beam once the frame is normalized, perpendicular distance 150, and a
90-frame scan from -45.0 in steps of 1.0. -/

def examplePanel : Panel :=
  { name := "panel", fastAxis := ⟨1,0,0⟩, slowAxis := ⟨0,-1,0⟩,
    origin := ⟨-20, 10, -150⟩, pixelSize := (1/10, 1/10), imageSize := (100, 100) }

def exampleScan : Scan :=
  { oscStart := -45, oscStep := 1, numImages := 90,
    exposureTimes := List.replicate 90 (1/100) }

def exampleExpt : Expt :=
  { goniometer := .singleAxis ⟨0,1,0⟩, detector := [examplePanel],
    scan := exampleScan, wavelength := 1, imageTemplate := "scan_0001.cbf",
    isSMVFormat := false, hasSingleFileReader := false, h5Data := [] }

/-- The aligning rotation for base axis `(0,1,0)`: a quarter turn about z
mapping y to x. -/
def exampleRot : Mat3 := ⟨⟨0,1,0⟩, ⟨-1,0,0⟩, ⟨0,0,1⟩⟩

theorem example_gon : get_gon_axes [exampleExpt] =
    .ok [(gonioDefaultAxis, ⟨⟨0,1,0⟩, none, "."⟩)] := rfl

theorem example_check :
    checkPrimaryAxis [(gonioDefaultAxis, ⟨⟨0,1,0⟩, none, "."⟩)] = .ok ⟨0,1,0⟩ := by
  exact @checkPrimaryAxis_ok _
    (gonioDefaultAxis, ⟨⟨0,1,0⟩, none, "."⟩) rfl (by norm_num)

theorem example_align : alignVectors e1 ⟨0,1,0⟩ = exampleRot := by
  simp only [alignVectors, e1, cross, dot, crossMat, idMat, matAdd, matSmul,
    matMul, vadd, smul, exampleRot, Mat3.mk.injEq, Vec3.mk.injEq]
  norm_num

theorem example_frameRot : frameRotationChecked ⟨0,1,0⟩ = .ok exampleRot := by
  have hac : allclose ⟨0,1,0⟩ e1 = false := by
    simp only [allclose, ratClose, e1, Bool.and_eq_false_iff]
    left
    norm_num
  have haa : assertAligned exampleRot ⟨0,1,0⟩ = true := by
    simp only [assertAligned, exampleRot, mulVec, dot, decide_eq_true_eq]
    norm_num
  rw [frameRotationChecked, hac, example_align]
  simp [haa]

theorem example_normal : panelNormal exampleRot examplePanel = ⟨0,0,-1⟩ := by
  simp only [panelNormal, examplePanel, exampleRot, mulVec, dot, cross, Vec3.mk.injEq]
  norm_num

theorem example_vnorm : vnormalize ⟨0,0,-1⟩ = ⟨0,0,-1⟩ :=
  vnormalize_unit (by norm_num [normSq, dot])

theorem example_perp : find_perp_panel [examplePanel] exampleRot = some 0 := by
  rw [find_perp_panel, findPerpAux, example_normal, example_vnorm]
  norm_num

theorem example_canon : canonNormal exampleRot examplePanel = ⟨0,0,-1⟩ := by
  rw [canonNormal, example_normal, example_vnorm, negIfTowardSample]
  norm_num

theorem example_tth : get_two_theta [examplePanel] exampleRot = .ok .aligned := by
  simp only [get_two_theta, example_perp, List.get?, example_canon]
  rw [if_pos]
  norm_num [vsub, normSq, dot, zNegRef]

theorem example_dist : get_distance examplePanel exampleRot = 150 := by
  rw [get_distance, example_normal, example_vnorm]
  simp only [mulVec, dot, examplePanel, exampleRot]
  norm_num

theorem example_det : get_det_axes [exampleExpt] exampleRot =
    .ok { twoTheta := none, transVals := [150] } := by
  have hdet : exampleExpt.detector = [examplePanel] := rfl
  simp only [get_det_axes, hdet, example_perp, mapExcept, example_tth,
    List.get?, example_dist, firstRotated, Option.map_none']

def exampleSrf : List (String × SrfAxis) :=
  [("ele1_fast",
    { axis := ⟨0,-1,0⟩, next := "Trans", origin := ⟨10,20,0⟩,
      pixSize := 1/10, numPix := 100, prec := 1, element := 1 }),
   ("ele1_slow",
    { axis := ⟨-1,0,0⟩, next := "ele1_fast", origin := ⟨0,0,0⟩,
      pixSize := 1/10, numPix := 100, prec := 2, element := 1 })]

theorem example_srf : get_srf_axes [exampleExpt] exampleRot = .ok exampleSrf := by
  have hdet : exampleExpt.detector = [examplePanel] := rfl
  simp only [get_srf_axes, hdet, List.all_nil, if_pos, example_tth, List.enum,
    List.enumFrom, srfPanelAxes, List.map, List.flatten, exampleSrf]
  simp only [examplePanel, exampleRot, mulVec, dot, Prod.mk.injEq,
    SrfAxis.mk.injEq, Vec3.mk.injEq, List.append_nil, List.cons.injEq]
  norm_num
  decide

theorem example_axes_info : get_axes_info [exampleExpt] =
    .ok ([(gonioDefaultAxis, { axis := e1, vals := none, next := "." })],
         { twoTheta := none, transVals := [150] }, exampleSrf) := by
  simp only [get_axes_info, example_gon, example_check, example_frameRot,
    example_det, example_srf, rotateGonAxes, List.map]
  simp only [mulVec, dot, exampleRot, e1, Vec3.mk.injEq, Prod.mk.injEq,
    GonAxisInfo.mk.injEq]
  norm_num

/-- `frameRotationChecked` only ever returns the frame rotation. -/
theorem frameRotationChecked_ok {p : Vec3} {m : Mat3}
    (h : frameRotationChecked p = .ok m) : m = frameRotation p := by
  unfold frameRotationChecked at h
  unfold frameRotation
  split at h
  · next hcl => cases h; rw [if_pos hcl]
  · next hcl =>
    split at h
    · cases h; rw [if_neg hcl]
    · cases h

/-- `claim C1` : a single global rotation is computed from the base
goniometer axis and applied to every goniometer axis direction: whenever
`get_axes_info` succeeds, its goniometer table is the input table with every
axis direction multiplied by `frameRotation primary`; the rotation is the
identity when the base axis is exactly `(1,0,0)`, and otherwise (for a unit,
non-antiparallel base axis outside the `np.allclose` window) maps the base
axis exactly to `(1,0,0)`; on the concrete single-axis example with base
direction `(0,1,0)` the output table shows `Omega` with direction
`(1,0,0)`. -/
theorem claim_C1 :
    (∀ expts ga p res, get_gon_axes expts = .ok ga → checkPrimaryAxis ga = .ok p →
      get_axes_info expts = .ok res → res.1 = rotateGonAxes (frameRotation p) ga) ∧
    (∀ p : Vec3, p = e1 → frameRotation p = idMat) ∧
    (∀ p : Vec3, normSq p = 1 → 1 + dot p e1 ≠ 0 → allclose p e1 = false →
      mulVec (frameRotation p) p = e1) ∧
    get_axes_info [exampleExpt] =
      .ok ([(gonioDefaultAxis, { axis := e1, vals := none, next := "." })],
           { twoTheta := none, transVals := [150] }, exampleSrf) := by
  refine ⟨?_, ?_, ?_, example_axes_info⟩
  · intro expts ga p res hga hchk hok
    simp only [get_axes_info, hga, hchk] at hok
    split at hok
    · simp at hok
    · rename_i m hfr
      split at hok
      · simp at hok
      · split at hok
        · simp at hok
        · cases hok
          rw [frameRotationChecked_ok hfr]
  · intro p hp
    subst hp
    rw [frameRotation, if_pos]
    simp only [allclose, ratClose, e1]
    norm_num
  · intro p hunit hc hcl
    rw [frameRotation, hcl]
    simp only [Bool.false_eq_true, if_false]
    exact alignVectors_apply p e1 hunit (by norm_num [normSq, dot, e1]) hc

/-! ## Handedness of the panel fast/slow pair (claim C8) -/

/-- Flip the handedness of a panel by exchanging its fast and slow axes. -/
def swapFS (p : Panel) : Panel :=
  { p with fastAxis := p.slowAxis, slowAxis := p.fastAxis }

theorem vneg_vneg (v : Vec3) : vneg (vneg v) = v := by
  simp [vneg]

theorem panelNormal_swapFS (rot : Mat3) (p : Panel) :
    panelNormal rot (swapFS p) = vneg (panelNormal rot p) := by
  simp only [panelNormal, swapFS, cross, vneg, mulVec, dot, Vec3.ext_iff']
  refine ⟨by ring, by ring, by ring⟩

theorem vnormalize_vneg (v : Vec3) : vnormalize (vneg v) = vneg (vnormalize v) := by
  unfold vnormalize
  rw [normSq_vneg]
  simp only [smul, vneg, Vec3.ext_iff']
  refine ⟨by ring, by ring, by ring⟩

theorem findPerpAux_map_swap (rot : Mat3) (l : List Panel) (i : ℕ) :
    findPerpAux rot (l.map swapFS) i = findPerpAux rot l i := by
  induction l generalizing i with
  | nil => rfl
  | cons p ps ih =>
    simp only [List.map_cons, findPerpAux, panelNormal_swapFS, vnormalize_vneg]
    have habs : |(vneg (vnormalize (panelNormal rot p))).x| =
        |(vnormalize (panelNormal rot p)).x| := by
      simp [vneg, abs_neg]
    rw [habs]
    split
    · rfl
    · exact ih (i+1)

theorem find_perp_panel_map_swap (det : List Panel) (rot : Mat3) :
    find_perp_panel (det.map swapFS) rot = find_perp_panel det rot := by
  unfold find_perp_panel
  exact findPerpAux_map_swap rot det 0

theorem canonNormal_swapFS (rot : Mat3) (p : Panel)
    (h : (vnormalize (panelNormal rot p)).z ≠ 0) :
    canonNormal rot (swapFS p) = canonNormal rot p := by
  unfold canonNormal
  rw [panelNormal_swapFS, vnormalize_vneg]
  unfold negIfTowardSample
  rcases lt_trichotomy (vnormalize (panelNormal rot p)).z 0 with hlt | heq | hgt
  · rw [if_pos (by simp only [vneg, decide_eq_true_eq]; linarith),
      if_neg (by simp only [decide_eq_true_eq]; exact not_lt.mpr hlt.le), vneg_vneg]
  · exact absurd heq h
  · rw [if_neg (by simp only [vneg, decide_eq_true_eq]; intro hcon; linarith),
      if_pos (by simp only [decide_eq_true_eq]; exact hgt)]

/-- `claim C8` (amended) : the canonicalized normal used by `get_two_theta`
always has non-positive z (the sign flip); the `Trans` distance is invariant
under exchanging a panel's fast and slow axes (via the absolute value in
`get_distance`, which does not itself canonicalize the normal); and the
two-theta result is invariant under exchanging fast and slow axes of all
panels whenever the selected panel's unit normal has nonzero z component. -/
theorem claim_C8 :
    (∀ rot p, (canonNormal rot p).z ≤ 0) ∧
    (∀ rot p, get_distance (swapFS p) rot = get_distance p rot) ∧
    (∀ det rot pp panel, find_perp_panel det rot = some pp →
      det.get? pp = some panel → (vnormalize (panelNormal rot panel)).z ≠ 0 →
      get_two_theta (det.map swapFS) rot = get_two_theta det rot) := by
  refine ⟨fun rot p => canonNormal_z_nonpos rot p, ?_, ?_⟩
  · intro rot p
    unfold get_distance
    rw [panelNormal_swapFS, vnormalize_vneg]
    have ho : (swapFS p).origin = p.origin := rfl
    rw [ho]
    have hd : dot (mulVec rot p.origin) (vneg (vnormalize (panelNormal rot p))) =
        -(dot (mulVec rot p.origin) (vnormalize (panelNormal rot p))) := by
      simp only [dot, vneg]; ring
    rw [hd, abs_neg]
  · intro det rot pp panel hfind hget hz
    have hfind' : find_perp_panel (det.map swapFS) rot = some pp := by
      rw [find_perp_panel_map_swap]; exact hfind
    have hget' : (det.map swapFS).get? pp = some (swapFS panel) := by
      rw [List.get?_map, hget]; rfl
    simp only [get_two_theta, hfind, hfind', hget, hget',
      canonNormal_swapFS rot panel hz]

/-- Concrete panels for the counterexample: normals `(0,-1,0)` and `(0,1,0)`
(z component zero), which the sign canonicalization leaves distinct. -/
def cexPanelA : Panel :=
  { name := "p", fastAxis := ⟨1,0,0⟩, slowAxis := ⟨0,0,1⟩,
    origin := ⟨0, -100, 0⟩, pixelSize := (1/10, 1/10), imageSize := (100, 100) }

def cexPanelB : Panel :=
  { name := "p", fastAxis := ⟨0,0,1⟩, slowAxis := ⟨1,0,0⟩,
    origin := ⟨0, -100, 0⟩, pixelSize := (1/10, 1/10), imageSize := (100, 100) }

theorem cex_normalA : panelNormal idMat cexPanelA = ⟨0,-1,0⟩ := by
  simp only [panelNormal, cexPanelA, idMat, mulVec, dot, cross, Vec3.mk.injEq]
  norm_num

theorem cex_normalB : panelNormal idMat cexPanelB = ⟨0,1,0⟩ := by
  simp only [panelNormal, cexPanelB, idMat, mulVec, dot, cross, Vec3.mk.injEq]
  norm_num

theorem cex_vnormA : vnormalize (⟨0,-1,0⟩ : Vec3) = ⟨0,-1,0⟩ :=
  vnormalize_unit (by norm_num [normSq, dot])

theorem cex_vnormB : vnormalize (⟨0,1,0⟩ : Vec3) = ⟨0,1,0⟩ :=
  vnormalize_unit (by norm_num [normSq, dot])

theorem cex_tthA : get_two_theta [cexPanelA] idMat =
    .ok (.rotated (alignVectors zNegRef ⟨0,-1,0⟩)) := by
  have hperp : find_perp_panel [cexPanelA] idMat = some 0 := by
    rw [find_perp_panel, findPerpAux, cex_normalA, cex_vnormA]
    norm_num
  have hcan : canonNormal idMat cexPanelA = ⟨0,-1,0⟩ := by
    rw [canonNormal, cex_normalA, cex_vnormA, negIfTowardSample]
    norm_num
  simp only [get_two_theta, hperp, List.get?, hcan]
  rw [if_neg]
  norm_num [vsub, normSq, dot, zNegRef]

theorem cex_tthB : get_two_theta [cexPanelB] idMat =
    .ok (.rotated (alignVectors zNegRef ⟨0,1,0⟩)) := by
  have hperp : find_perp_panel [cexPanelB] idMat = some 0 := by
    rw [find_perp_panel, findPerpAux, cex_normalB, cex_vnormB]
    norm_num
  have hcan : canonNormal idMat cexPanelB = ⟨0,1,0⟩ := by
    rw [canonNormal, cex_normalB, cex_vnormB, negIfTowardSample]
    norm_num
  simp only [get_two_theta, hperp, List.get?, hcan]
  rw [if_neg]
  norm_num [vsub, normSq, dot, zNegRef]

/-- `claim C8` counterexample: the two panels differ only by exchanging the
fast and slow axes (a handedness flip), yet `get_two_theta` returns different
rotations, because the canonicalized normal has z component zero and the sign
flip does not identify `(0,-1,0)` with `(0,1,0)`. -/
theorem claim_C8_counterexample :
    cexPanelB = swapFS cexPanelA ∧
    get_two_theta [cexPanelB] idMat ≠ get_two_theta [cexPanelA] idMat := by
  refine ⟨rfl, ?_⟩
  rw [cex_tthA, cex_tthB]
  have hA : alignVectors zNegRef ⟨0,-1,0⟩ = ⟨⟨1,0,0⟩,⟨0,0,-1⟩,⟨0,1,0⟩⟩ := by
    simp only [alignVectors, zNegRef, cross, dot, crossMat, idMat, matAdd,
      matSmul, matMul, vadd, smul, Mat3.mk.injEq, Vec3.mk.injEq]
    norm_num
  have hB : alignVectors zNegRef ⟨0,1,0⟩ = ⟨⟨1,0,0⟩,⟨0,0,1⟩,⟨0,-1,0⟩⟩ := by
    simp only [alignVectors, zNegRef, cross, dot, crossMat, idMat, matAdd,
      matSmul, matMul, vadd, smul, Mat3.mk.injEq, Vec3.mk.injEq]
    norm_num
  rw [hA, hB]
  intro hcon
  have := congrArg (fun r => match r with
    | Except.ok (TthInfo.rotated m) => m.r2.z
    | _ => 0) hcon
  norm_num at this

theorem claim_C1_witness :
    mulVec (frameRotation ⟨0,1,0⟩) ⟨0,1,0⟩ = e1 := by
  refine claim_C1.2.2.1 ⟨0,1,0⟩ (by norm_num [normSq, dot]) (by norm_num [dot, e1]) ?_
  simp only [allclose, ratClose, e1, Bool.and_eq_false_iff]
  left
  norm_num

theorem claim_C2_witness :
    get_two_theta [examplePanel] exampleRot = .ok .aligned := by
  refine (claim_C2.1 [examplePanel] exampleRot 0 examplePanel example_perp rfl).1 ?_
  rw [example_canon]
  norm_num [vsub, normSq, dot, zNegRef]

theorem claim_C7_witness :
    checkPrimaryAxis ([] : List (String × GonAxisInfo)) =
      .error (.assertionError "0 != 1 primary goniometer axes") ∧
    checkPrimaryAxis [(gonioDefaultAxis, ⟨⟨0,1,0⟩, none, "."⟩)] = .ok ⟨0,1,0⟩ ∧
    checkPrimaryAxis [(gonioDefaultAxis, ⟨⟨0,0,1⟩, none, "."⟩)] =
      .error (.valueError "Primary axis had an unexpected z component") := by
  refine ⟨?_, ?_, ?_⟩
  · have h := (claim_C7 ([] : List (String × GonAxisInfo))).1 (by decide)
    rw [h]
    congr 2
  · exact (claim_C7 _).2.2.1 (gonioDefaultAxis, ⟨⟨0,1,0⟩, none, "."⟩) rfl (by norm_num)
  · exact (claim_C7 _).2.1 (gonioDefaultAxis, ⟨⟨0,0,1⟩, none, "."⟩) rfl (by norm_num)

theorem claim_C8_witness :
    get_distance (swapFS examplePanel) exampleRot = get_distance examplePanel exampleRot ∧
    get_two_theta ([examplePanel].map swapFS) exampleRot =
      get_two_theta [examplePanel] exampleRot := by
  refine ⟨claim_C8.2.1 exampleRot examplePanel, ?_⟩
  refine claim_C8.2.2 [examplePanel] exampleRot 0 examplePanel example_perp rfl ?_
  rw [example_normal, example_vnorm]
  norm_num

/-! ## Scan indexing

`write_scan_info`, `write_frame_ids` and `write_frame_images` of the source.
The Python functions format numeric values into fixed-decimal strings for
output; the rows are embedded with their exact numeric values (the format
call is presentational).  Frame identifiers are written as `frm<n>` in the
output; the rows carry the integer `n`. -/

/-- One cell of the `_diffrn_scan_axis` table: the placeholder `"."`, an
exact numeric value, or the two-theta angle of a snapshot (which is `0.0`
for an aligned snapshot and the rotation angle of the stored rotation
otherwise). -/
inductive CellVal where
  | dot
  | num (q : ℚ)
  | ang (t : TthInfo)
deriving DecidableEq, Repr

structure ScanAxRow where
  scanId : String
  axisId : String
  dispStart : CellVal
  dispInc : CellVal
  dispRange : CellVal
  angStart : CellVal
  angInc : CellVal
  angRange : CellVal
deriving DecidableEq, Repr

/-- The scan axis name for one experiment: the goniometer's scan axis for a
multi-axis goniometer, else the default axis name. -/
def scanAxName (e : Expt) : String :=
  match e.goniometer with
  | .multiAxis names _ _ scanAxis => names.getD scanAxis ""
  | .singleAxis _ => gonioDefaultAxis

/-- Goniometer axis rows of one scan in `write_scan_info`: the scan axis
receives the `(start, increment, range)` triple (with
`range = step * num_images`, to the end of the final step); every other axis
its fixed per-scan angle.  (For an axis without recorded `vals` the source
would raise a KeyError; that branch is unreachable for the axis tables the
converter builds, and is embedded with a default.) -/
def scanGonRows (sIx : ℕ) (e : Expt) (gAxes : List (String × GonAxisInfo)) :
    List ScanAxRow :=
  gAxes.map (fun kv =>
    if kv.1 = scanAxName e then
      { scanId := "SCAN." ++ toString (sIx+1), axisId := kv.1,
        dispStart := .dot, dispInc := .dot, dispRange := .dot,
        angStart := .num e.scan.oscStart, angInc := .num e.scan.oscStep,
        angRange := .num (e.scan.oscStep * e.scan.numImages) }
    else
      { scanId := "SCAN." ++ toString (sIx+1), axisId := kv.1,
        dispStart := .dot, dispInc := .dot, dispRange := .dot,
        angStart := .num ((kv.2.vals.getD []).getD sIx 0), angInc := .num 0,
        angRange := .num 0 })

/-- Detector axis rows of one scan in `write_scan_info`: `Two_Theta` (when
present) receives its per-scan angle, `Trans` its per-scan displacement. -/
def scanDetRows (sIx : ℕ) (d : DetAxes) : List ScanAxRow :=
  (match d.twoTheta with
   | some tv =>
     [{ scanId := "SCAN." ++ toString (sIx+1), axisId := "Two_Theta",
        dispStart := .dot, dispInc := .dot, dispRange := .dot,
        angStart := .ang (tv.2.getD sIx .aligned), angInc := .num 0,
        angRange := .num 0 }]
   | none => []) ++
  [{ scanId := "SCAN." ++ toString (sIx+1), axisId := "Trans",
     dispStart := .num (d.transVals.getD sIx 0), dispInc := .num 0,
     dispRange := .num 0,
     angStart := .dot, angInc := .dot, angRange := .dot }]

/-- `write_scan_info`: the `_diffrn_scan_axis` rows, per scan in order. -/
def write_scan_info (expts : List Expt) (gAxes : List (String × GonAxisInfo))
    (d : DetAxes) : List ScanAxRow :=
  (expts.enum.map (fun se => scanGonRows se.1 se.2 gAxes ++ scanDetRows se.1 d)).flatten

/-- The `_diffrn_scan` rows of `write_frame_ids` (scan id, first frame id,
last frame id, frame count), built with a running counter over the FULL
per-scan frame counts; this loop does not consult the frame limit. -/
def scanRangeAux : List Expt → ℕ → ℕ → List (String × ℕ × ℕ × ℕ)
  | [], _, _ => []
  | e :: es, sIx, counter =>
    ("SCAN." ++ toString sIx, counter, counter + e.scan.numImages - 1,
      e.scan.numImages) ::
      scanRangeAux es (sIx+1) (counter + e.scan.numImages)

def scanRangeRows (expts : List Expt) : List (String × ℕ × ℕ × ℕ) :=
  scanRangeAux expts 1 1

/-- One row of the `_diffrn_scan_frame` table, or the single-element comment
row recording how many rows were cut for preview. -/
inductive FrameRow where
  | frame (id : ℕ) (scanId : String) (frameNumber : ℕ) (integrationTime : ℚ)
  | cutMarker (nCut : ℕ)
deriving DecidableEq, Repr

/-- `min(n_frames, scan_frame_limit)`; `none` is the default `np.inf`. -/
def limitedCount (n : ℕ) : Option ℕ → ℕ
  | none => n
  | some l => min n l

/-- `n_frames - scan_frame_limit` (the count of elided rows; 0 when nothing
is cut). -/
def cutCount (n : ℕ) : Option ℕ → ℕ
  | none => 0
  | some l => n - l

/-- The frame rows of one scan: the first `min(n, limit)` frames with
consecutive global ids from `counter`, followed by the cut marker when
frames were elided. -/
def scanFrameBlock (sIx : ℕ) (e : Expt) (limit : Option ℕ) (counter : ℕ) :
    List FrameRow :=
  ((List.range (limitedCount e.scan.numImages limit)).map (fun fIx =>
    .frame (counter + fIx) ("SCAN." ++ toString sIx) (fIx + 1)
      (e.scan.exposureTimes.getD fIx 0))) ++
  (if 0 < cutCount e.scan.numImages limit then
    [.cutMarker (cutCount e.scan.numImages limit)] else [])

/-- The `_diffrn_scan_frame` rows of `write_frame_ids`: the running counter
is advanced only by emitted frame rows (by `min(n, limit)` per scan). -/
def frameRowsAux : List Expt → Option ℕ → ℕ → ℕ → List FrameRow
  | [], _, _, _ => []
  | e :: es, limit, sIx, counter =>
    scanFrameBlock sIx e limit counter ++
      frameRowsAux es limit (sIx+1) (counter + limitedCount e.scan.numImages limit)

def frameRows (expts : List Expt) (limit : Option ℕ) : List FrameRow :=
  frameRowsAux expts limit 1 1

/-- `write_frame_ids`: the scan-range table followed by the frame table. -/
def write_frame_ids (expts : List Expt) (limit : Option ℕ) :
    List (String × ℕ × ℕ × ℕ) × List FrameRow :=
  (scanRangeRows expts, frameRows expts limit)

/-- One row of the `_diffrn_data_frame` table of `write_frame_images`, or
the cut marker. -/
inductive ImgRow where
  | img (frameId : ℕ) (elementId : String) (arrayId : String) (binaryId : ℕ)
  | cutMarker (nCut : ℕ)
deriving DecidableEq, Repr

/-- The frame-image rows of one scan: the first `min(n, limit)` frames with
consecutive global ids (also used as binary ids), then the cut marker. -/
def scanImgBlock (e : Expt) (limit : Option ℕ) (counter : ℕ) : List ImgRow :=
  ((List.range (limitedCount e.scan.numImages limit)).map (fun fIx =>
    .img (counter + fIx) "ELEMENT" "IMAGE" (counter + fIx))) ++
  (if 0 < cutCount e.scan.numImages limit then
    [.cutMarker (cutCount e.scan.numImages limit)] else [])

def imgRowsAux : List Expt → Option ℕ → ℕ → List ImgRow
  | [], _, _ => []
  | e :: es, limit, counter =>
    scanImgBlock e limit counter ++
      imgRowsAux es limit (counter + limitedCount e.scan.numImages limit)

def imgRows (expts : List Expt) (limit : Option ℕ) : List ImgRow :=
  imgRowsAux expts limit 1

def fullCounts (expts : List Expt) : List ℕ := expts.map (fun e => e.scan.numImages)

def truncCounts (expts : List Expt) (limit : Option ℕ) : List ℕ :=
  expts.map (fun e => limitedCount e.scan.numImages limit)

/-- One row of the `_array_data` table, or the cut marker. -/
inductive ArrRow where
  | row (binaryId : ℕ) (externalDataId : ℕ)
  | cutMarker (nCut : ℕ)
deriving DecidableEq, Repr

/-- The `_array_data` rows of `write_frame_images`: one row per global image
id `1 .. counter-1` (the counter left by the frame-image loop, i.e. the sum
of truncated counts), plus the cut marker when the full total exceeds it. -/
def arrayDataRows (expts : List Expt) (limit : Option ℕ) : List ArrRow :=
  ((List.range' 1 ((truncCounts expts limit).sum)).map (fun i => .row i i)) ++
  (if 0 < (fullCounts expts).sum - (truncCounts expts limit).sum then
    [.cutMarker ((fullCounts expts).sum - (truncCounts expts limit).sum)] else [])

/-- `write_frame_images`: the frame-image table and the array-data table. -/
def write_frame_images (expts : List Expt) (limit : Option ℕ) :
    List ImgRow × List ArrRow :=
  (imgRows expts limit, arrayDataRows expts limit)

/-! ## Frame numbering (claims C3, C9) -/

/-- The global frame identifiers carried by the frame rows, in order (marker
rows carry none). -/
def frameIdsOf : List FrameRow → List ℕ
  | [] => []
  | .frame i _ _ _ :: rest => i :: frameIdsOf rest
  | .cutMarker _ :: rest => frameIdsOf rest

theorem frameIdsOf_append (a b : List FrameRow) :
    frameIdsOf (a ++ b) = frameIdsOf a ++ frameIdsOf b := by
  induction a with
  | nil => rfl
  | cons r rest ih => cases r <;> simp [frameIdsOf, ih]

theorem frameIdsOf_map_frame (l : List ℕ) (c : ℕ) (s : String) (g : ℕ → ℚ) :
    frameIdsOf (l.map (fun fIx => FrameRow.frame (c + fIx) s (fIx + 1) (g fIx))) =
      l.map (c + ·) := by
  induction l with
  | nil => rfl
  | cons a as ih => simp [frameIdsOf, ih]

theorem frameIdsOf_block (sIx : ℕ) (e : Expt) (limit : Option ℕ) (counter : ℕ) :
    frameIdsOf (scanFrameBlock sIx e limit counter) =
      List.range' counter (limitedCount e.scan.numImages limit) := by
  unfold scanFrameBlock
  rw [frameIdsOf_append, frameIdsOf_map_frame]
  have hmarker : frameIdsOf (if 0 < cutCount e.scan.numImages limit then
      [FrameRow.cutMarker (cutCount e.scan.numImages limit)] else []) = [] := by
    split <;> rfl
  rw [hmarker, List.append_nil, List.range_eq_range']
  have := List.map_add_range' counter 0 (limitedCount e.scan.numImages limit) 1
  simp only [Nat.add_zero] at this
  rw [← this]

theorem frameIdsOf_aux (es : List Expt) (limit : Option ℕ) :
    ∀ sIx counter, frameIdsOf (frameRowsAux es limit sIx counter) =
      List.range' counter ((truncCounts es limit).sum) := by
  induction es with
  | nil => intro sIx counter; rfl
  | cons e es ih =>
    intro sIx counter
    rw [frameRowsAux, frameIdsOf_append, frameIdsOf_block, ih]
    have hm : truncCounts (e :: es) limit =
        limitedCount e.scan.numImages limit :: truncCounts es limit := rfl
    rw [hm, List.sum_cons]
    have := List.range'_append counter (limitedCount e.scan.numImages limit)
      ((truncCounts es limit).sum) 1
    simp only [one_mul] at this
    rw [this, Nat.add_comm ((truncCounts es limit).sum)]

/-- The closed form of the frame table: the block of scan `i` (0-based)
starts at global id `1 +` the sum of the TRUNCATED counts of all earlier
scans. -/
theorem frameRowsAux_closed (es : List Expt) (limit : Option ℕ) :
    ∀ sIx counter, frameRowsAux es limit sIx counter =
      ((List.range es.length).map (fun i =>
        match es.get? i with
        | some e => scanFrameBlock (sIx + i) e limit
            (counter + ((truncCounts es limit).take i).sum)
        | none => [])).flatten := by
  induction es with
  | nil => intro sIx counter; rfl
  | cons e es ih =>
    intro sIx counter
    rw [frameRowsAux, ih (sIx+1) (counter + limitedCount e.scan.numImages limit),
      List.length_cons, List.range_succ_eq_map, List.map_cons, List.flatten_cons]
    congr 1
    apply congrArg List.flatten
    rw [List.map_map]
    apply List.map_congr_left
    intro i _
    simp only [Function.comp_apply, List.get?_cons_succ, List.getElem?_cons_succ]
    have hm : truncCounts (e :: es) limit =
        limitedCount e.scan.numImages limit :: truncCounts es limit := rfl
    rw [hm, List.take_succ_cons, List.sum_cons]
    have h1 : sIx + Nat.succ i = sIx + 1 + i := by omega
    have h2 : counter + (limitedCount e.scan.numImages limit +
        ((truncCounts es limit).take i).sum) =
        counter + limitedCount e.scan.numImages limit +
        ((truncCounts es limit).take i).sum := by omega
    rw [h1, h2]

theorem imgRowsAux_closed (es : List Expt) (limit : Option ℕ) :
    ∀ counter, imgRowsAux es limit counter =
      ((List.range es.length).map (fun i =>
        match es.get? i with
        | some e => scanImgBlock e limit
            (counter + ((truncCounts es limit).take i).sum)
        | none => [])).flatten := by
  induction es with
  | nil => intro counter; rfl
  | cons e es ih =>
    intro counter
    rw [imgRowsAux, ih (counter + limitedCount e.scan.numImages limit),
      List.length_cons, List.range_succ_eq_map, List.map_cons, List.flatten_cons]
    congr 1
    apply congrArg List.flatten
    rw [List.map_map]
    apply List.map_congr_left
    intro i _
    simp only [Function.comp_apply, List.get?_cons_succ, List.getElem?_cons_succ]
    have hm : truncCounts (e :: es) limit =
        limitedCount e.scan.numImages limit :: truncCounts es limit := rfl
    rw [hm, List.take_succ_cons, List.sum_cons]
    have h2 : counter + (limitedCount e.scan.numImages limit +
        ((truncCounts es limit).take i).sum) =
        counter + limitedCount e.scan.numImages limit +
        ((truncCounts es limit).take i).sum := by omega
    rw [h2]

theorem truncCounts_none (expts : List Expt) :
    truncCounts expts none = fullCounts expts := rfl

/-- The cut-marker values carried by the frame rows, in order. -/
def cutMarkersOf : List FrameRow → List ℕ
  | [] => []
  | .frame _ _ _ _ :: rest => cutMarkersOf rest
  | .cutMarker n :: rest => n :: cutMarkersOf rest

theorem cutMarkersOf_append (a b : List FrameRow) :
    cutMarkersOf (a ++ b) = cutMarkersOf a ++ cutMarkersOf b := by
  induction a with
  | nil => rfl
  | cons r rest ih => cases r <;> simp [cutMarkersOf, ih]

theorem cutMarkersOf_map_frame (l : List ℕ) (c : ℕ) (s : String) (g : ℕ → ℚ) :
    cutMarkersOf (l.map (fun fIx => FrameRow.frame (c + fIx) s (fIx + 1) (g fIx))) =
      [] := by
  induction l with
  | nil => rfl
  | cons a as ih => simp [cutMarkersOf, ih]

theorem cutMarkersOf_block (sIx : ℕ) (e : Expt) (L : ℕ) (counter : ℕ) :
    cutMarkersOf (scanFrameBlock sIx e (some L) counter) =
      if L < e.scan.numImages then [e.scan.numImages - L] else [] := by
  unfold scanFrameBlock
  rw [cutMarkersOf_append, cutMarkersOf_map_frame, List.nil_append]
  have hcut : cutCount e.scan.numImages (some L) = e.scan.numImages - L := rfl
  rw [hcut]
  by_cases h : L < e.scan.numImages
  · rw [if_pos h, if_pos (by omega)]
    rfl
  · rw [if_neg h, if_neg (by omega)]
    rfl

theorem cutMarkersOf_aux (es : List Expt) (L : ℕ) :
    ∀ sIx counter, cutMarkersOf (frameRowsAux es (some L) sIx counter) =
      (es.filter (fun e => decide (L < e.scan.numImages))).map
        (fun e => e.scan.numImages - L) := by
  induction es with
  | nil => intro sIx counter; rfl
  | cons e es ih =>
    intro sIx counter
    rw [frameRowsAux, cutMarkersOf_append, cutMarkersOf_block, ih]
    by_cases h : L < e.scan.numImages
    · rw [if_pos h, List.filter_cons_of_pos (by simpa using h), List.map_cons]
      rfl
    · rw [if_neg h, List.filter_cons_of_neg (by simpa using h), List.nil_append]

/-- `claim C3` : truncated frame emission.  (i) The frame table decomposes
into per-scan blocks of exactly the first `min(frame_count, limit)` frames
plus (by `scanFrameBlock`) one single-element cut marker exactly when
`frame_count` exceeds the limit, the block of scan `i` starting at global
id `1 +` the sum of the previous scans' TRUNCATED counts; (ii) the same for
the frame-image table; (iii) the emitted global frame ids are exactly
`1, 2, ..., sum of truncated counts` (contiguous and strictly increasing),
in particular (iv) without a limit they are `1 .. total frame count`; and
(v) under a limit `L` there is exactly one marker per scan with more than
`L` frames, recording `frame_count - L` elided rows. -/
theorem claim_C3 :
    (∀ expts limit, frameRows expts limit =
      ((List.range expts.length).map (fun i =>
        match expts.get? i with
        | some e => scanFrameBlock (1 + i) e limit
            (1 + ((truncCounts expts limit).take i).sum)
        | none => [])).flatten) ∧
    (∀ expts limit, imgRows expts limit =
      ((List.range expts.length).map (fun i =>
        match expts.get? i with
        | some e => scanImgBlock e limit
            (1 + ((truncCounts expts limit).take i).sum)
        | none => [])).flatten) ∧
    (∀ expts limit, frameIdsOf (frameRows expts limit) =
      List.range' 1 ((truncCounts expts limit).sum)) ∧
    (∀ expts, frameIdsOf (frameRows expts none) =
      List.range' 1 ((fullCounts expts).sum)) ∧
    (∀ expts L, cutMarkersOf (frameRows expts (some L)) =
      (expts.filter (fun e => decide (L < e.scan.numImages))).map
        (fun e => e.scan.numImages - L)) := by
  refine ⟨?_, ?_, ?_, ?_, ?_⟩
  · intro expts limit
    exact frameRowsAux_closed expts limit 1 1
  · intro expts limit
    exact imgRowsAux_closed expts limit 1
  · intro expts limit
    exact frameIdsOf_aux expts limit 1 1
  · intro expts
    unfold frameRows
    rw [frameIdsOf_aux expts none 1 1, truncCounts_none]
  · intro expts L
    exact cutMarkersOf_aux expts L 1 1

/-! ### Claim C9: the scan-range table ignores the truncation limit -/

theorem scanRangeAux_closed (es : List Expt) :
    ∀ sIx counter, scanRangeAux es sIx counter =
      (List.range es.length).map (fun i =>
        match es.get? i with
        | some e => ("SCAN." ++ toString (sIx + i),
            counter + ((fullCounts es).take i).sum,
            counter + ((fullCounts es).take i).sum + e.scan.numImages - 1,
            e.scan.numImages)
        | none => ("", 0, 0, 0)) := by
  induction es with
  | nil => intro sIx counter; rfl
  | cons e es ih =>
    intro sIx counter
    rw [scanRangeAux, ih (sIx+1) (counter + e.scan.numImages),
      List.length_cons, List.range_succ_eq_map, List.map_cons]
    congr 1
    rw [List.map_map]
    apply List.map_congr_left
    intro i _
    simp only [Function.comp_apply, List.get?_cons_succ, List.getElem?_cons_succ]
    have hm : fullCounts (e :: es) = e.scan.numImages :: fullCounts es := rfl
    rw [hm, List.take_succ_cons, List.sum_cons]
    have h1 : sIx + Nat.succ i = sIx + 1 + i := by omega
    have h2 : counter + (e.scan.numImages + ((fullCounts es).take i).sum) =
        counter + e.scan.numImages + ((fullCounts es).take i).sum := by omega
    rw [h1, h2]

theorem scanRangeAux_getLast (es : List Expt) :
    ∀ sIx counter r, (scanRangeAux es sIx counter).getLast? = some r →
      r.2.2.1 = counter + (fullCounts es).sum - 1 := by
  induction es with
  | nil => intro sIx counter r h; cases h
  | cons e es ih =>
    intro sIx counter r h
    rcases es with _ | ⟨e', es'⟩
    · simp only [scanRangeAux, List.getLast?_singleton, Option.some.injEq] at h
      subst h
      simp [fullCounts]
    · have h' : (scanRangeAux (e' :: es') (sIx+1)
          (counter + e.scan.numImages)).getLast? = some r := by
        simp only [scanRangeAux] at h ⊢
        rwa [List.getLast?_cons_cons] at h
      have := ih (sIx+1) (counter + e.scan.numImages) r h'
      have hm : fullCounts (e :: e' :: es') =
          e.scan.numImages :: fullCounts (e' :: es') := rfl
      rw [hm, List.sum_cons]
      omega

/-- `claim C9` : the per-scan frame-range table is computed from the full
per-scan frame counts and does not consult the truncation limit: (i) the
ranges component of `write_frame_ids` is the same for every limit; (ii) its
rows are determined by the cumulative FULL counts, so (iii) the last row's
`frame_id_end` equals the total full frame count; and (iv) when some scan's
frame count exceeds the limit `L`, that total exceeds the truncated total
and is an id that the (truncated) frame table never emits. -/
theorem claim_C9 :
    (∀ expts limit, (write_frame_ids expts limit).1 = scanRangeRows expts) ∧
    (∀ expts, scanRangeRows expts =
      (List.range expts.length).map (fun i =>
        match expts.get? i with
        | some e => ("SCAN." ++ toString (1 + i),
            1 + ((fullCounts expts).take i).sum,
            1 + ((fullCounts expts).take i).sum + e.scan.numImages - 1,
            e.scan.numImages)
        | none => ("", 0, 0, 0))) ∧
    (∀ expts r, (scanRangeRows expts).getLast? = some r →
      r.2.2.1 = (fullCounts expts).sum) ∧
    (∀ expts L, (∃ e ∈ expts, L < e.scan.numImages) →
      (truncCounts expts (some L)).sum < (fullCounts expts).sum ∧
      (fullCounts expts).sum ∉ frameIdsOf (frameRows expts (some L))) := by
  refine ⟨fun _ _ => rfl, ?_, ?_, ?_⟩
  · intro expts
    exact scanRangeAux_closed expts 1 1
  · intro expts r h
    have := scanRangeAux_getLast expts 1 1 r h
    omega
  · intro expts L hex
    have hlt : (truncCounts expts (some L)).sum < (fullCounts expts).sum := by
      rcases hex with ⟨e, hmem, hgt⟩
      have ht : truncCounts expts (some L) =
          expts.map (fun e => min e.scan.numImages L) := rfl
      have hf : fullCounts expts = expts.map (fun e => e.scan.numImages) := rfl
      rw [ht, hf]
      refine List.sum_lt_sum _ _ (fun x _ => Nat.min_le_left _ _) ⟨e, hmem, ?_⟩
      omega
    refine ⟨hlt, ?_⟩
    unfold frameRows
    rw [frameIdsOf_aux expts (some L) 1 1]
    intro hmem
    rw [List.mem_range'_1] at hmem
    omega

theorem claim_C9_witness :
    (("SCAN.1", 1, 90, 90) : String × ℕ × ℕ × ℕ).2.2.1 =
      (fullCounts [exampleExpt]).sum ∧
    ((truncCounts [exampleExpt] (some 10)).sum < (fullCounts [exampleExpt]).sum ∧
      (fullCounts [exampleExpt]).sum ∉
        frameIdsOf (frameRows [exampleExpt] (some 10))) := by
  constructor
  · exact claim_C9.2.2.1 [exampleExpt] ("SCAN.1", 1, 90, 90) (by decide)
  · exact claim_C9.2.2.2 [exampleExpt] 10
      ⟨exampleExpt, List.mem_cons_self _ _, by decide⟩

/-! ## Claim C10: the default-named single goniometer axis -/

/-- The scan-axis row written for the default-named axis of scan `sIx`
(0-based): the `(start, increment, range)` triple. -/
def defaultScanAxisRow (sIx : ℕ) (e : Expt) : ScanAxRow :=
  { scanId := "SCAN." ++ toString (sIx+1), axisId := gonioDefaultAxis,
    dispStart := .dot, dispInc := .dot, dispRange := .dot,
    angStart := .num e.scan.oscStart, angInc := .num e.scan.oscStep,
    angRange := .num (e.scan.oscStep * e.scan.numImages) }

/-- `claim C10` : a goniometer that is not multi-axis is registered by
`get_gon_axes` under the fixed default name with the sentinel `depends_on`
and no per-scan values; and in the scan-settings table, every row carrying
the default axis name (for a batch of non-multi-axis goniometers) is the
scan-axis row with the `(start, increment, range)` triple, never a fixed
scalar row. -/
theorem claim_C10 :
    (∀ e0 rest, e0.goniometer.isMultiAxis = false →
      ∃ ax, e0.goniometer = .singleAxis ax ∧
        get_gon_axes (e0 :: rest) =
          .ok [(gonioDefaultAxis, { axis := ax, vals := none, next := "." })]) ∧
    (∀ expts gAxes d row, (∀ e ∈ expts, e.goniometer.isMultiAxis = false) →
      row ∈ write_scan_info expts gAxes d → row.axisId = gonioDefaultAxis →
      ∃ sIx e, expts.get? sIx = some e ∧ row = defaultScanAxisRow sIx e) := by
  constructor
  · intro e0 rest hsingle
    rcases hg : e0.goniometer with _ | ax
    · rw [hg] at hsingle; simp [Gonio.isMultiAxis] at hsingle
    · exact ⟨ax, rfl, by simp [get_gon_axes, hg]⟩
  · intro expts gAxes d row hall hmem haxis
    unfold write_scan_info at hmem
    rw [List.mem_flatten] at hmem
    rcases hmem with ⟨block, hblock, hrow⟩
    rw [List.mem_map] at hblock
    rcases hblock with ⟨se, hse, rfl⟩
    rcases se with ⟨i, e⟩
    have hie := List.mem_enum hse
    have hget : expts.get? i = some e := by
      rw [List.get?_eq_getElem?, List.getElem?_eq_getElem hie.1]
      exact congrArg some hie.2.symm
    have hemem : e ∈ expts := List.get?_mem hget
    have hesingle := hall e hemem
    rcases hgon : e.goniometer with _ | ax
    · rw [hgon] at hesingle; simp [Gonio.isMultiAxis] at hesingle
    · rw [List.mem_append] at hrow
      rcases hrow with hrow | hrow
      · unfold scanGonRows at hrow
        rw [List.mem_map] at hrow
        rcases hrow with ⟨kv, _, rfl⟩
        have hscanax : scanAxName e = gonioDefaultAxis := by
          unfold scanAxName; rw [hgon]
        by_cases hkv : kv.1 = scanAxName e
        · rw [if_pos hkv]
          refine ⟨i, e, hget, ?_⟩
          unfold defaultScanAxisRow
          rw [hkv, hscanax]
        · exfalso
          rw [if_neg hkv] at haxis
          exact hkv (by rw [hscanax]; exact haxis)
      · exfalso
        unfold scanDetRows at hrow
        rw [List.mem_append] at hrow
        rcases htt : d.twoTheta with _ | tv
        all_goals simp only [htt] at hrow
        · rcases hrow with hrow | hrow
          · simp at hrow
          · simp at hrow
            rw [hrow] at haxis
            have hbad : ("Trans" : String) = gonioDefaultAxis := haxis
            exact absurd hbad (by decide)
        · rcases hrow with hrow | hrow
          · simp at hrow
            rw [hrow] at haxis
            have hbad : ("Two_Theta" : String) = gonioDefaultAxis := haxis
            exact absurd hbad (by decide)
          · simp at hrow
            rw [hrow] at haxis
            have hbad : ("Trans" : String) = gonioDefaultAxis := haxis
            exact absurd hbad (by decide)

theorem claim_C10_witness :
    (∃ ax, exampleExpt.goniometer = .singleAxis ax ∧
      get_gon_axes [exampleExpt] =
        .ok [(gonioDefaultAxis, { axis := ax, vals := none, next := "." })]) ∧
    (∃ sIx e, ([exampleExpt] : List Expt).get? sIx = some e ∧
      defaultScanAxisRow 0 exampleExpt = defaultScanAxisRow sIx e) := by
  constructor
  · exact claim_C10.1 exampleExpt [] rfl
  · have hmem : defaultScanAxisRow 0 exampleExpt ∈
        write_scan_info [exampleExpt]
          [(gonioDefaultAxis, ⟨⟨0,1,0⟩, none, "."⟩)]
          { twoTheta := none, transVals := [150] } := by
      unfold write_scan_info
      rw [show ([exampleExpt] : List Expt).enum = [(0, exampleExpt)] from rfl,
        List.map_cons, List.map_nil, List.flatten_cons, List.flatten_nil,
        List.append_nil]
      apply List.mem_append_left
      unfold scanGonRows
      rw [List.map_cons, List.map_nil]
      exact List.mem_singleton.mpr (by rfl)
    exact claim_C10.2 [exampleExpt]
      [(gonioDefaultAxis, ⟨⟨0,1,0⟩, none, "."⟩)]
      { twoTheta := none, transVals := [150] }
      (defaultScanAxisRow 0 exampleExpt)
      (fun e he => by rcases List.mem_singleton.mp he with rfl; rfl)
      hmem rfl

/-! ## Scan-step template encoding (`encode_scan_step`, claim C6)

`re.sub(r"(#+)\.", repl, template)` replaces every maximal run of `#`
characters that is immediately followed by a literal dot with the
zero-padded frame number (keeping the dot).  A run not followed by a dot is
left unchanged. -/

def digCh (d : ℕ) : Char :=
  if d = 0 then '0' else if d = 1 then '1' else if d = 2 then '2'
  else if d = 3 then '3' else if d = 4 then '4' else if d = 5 then '5'
  else if d = 6 then '6' else if d = 7 then '7' else if d = 8 then '8' else '9'

def digitsAux : ℕ → ℕ → List Char
  | 0, _ => []
  | fuel+1, n => if n < 10 then [digCh n] else digitsAux fuel (n / 10) ++ [digCh (n % 10)]

/-- Decimal digits of `n`, most significant first. -/
def natDigits (n : ℕ) : List Char := digitsAux (n+1) n

/-- Python `f"{val:0{width}}"`: decimal digits left-padded with zeros to the
requested width (never truncated). -/
def padInt (n w : ℕ) : List Char :=
  List.replicate (w - (natDigits n).length) '0' ++ natDigits n

/-- The regex substitution, scanning left to right with `p` pending `#`
characters: a pending run closed by a dot is replaced by the padded number,
a run closed by any other character is emitted verbatim. -/
def subHashA (n : ℕ) (p : ℕ) : List Char → List Char
  | [] => List.replicate p '#'
  | c :: cs =>
    if c = '#' then subHashA n (p+1) cs
    else if c = '.' then
      (if p = 0 then [] else padInt n p) ++ '.' :: subHashA n 0 cs
    else List.replicate p '#' ++ c :: subHashA n 0 cs

/-- `encode_scan_step(template, val)`. -/
def encode_scan_step (template : String) (val : ℕ) : String :=
  String.mk (subHashA val 0 template.data)

/-! ## External locations (`gen_external_locations` and collaborators) -/

/-- Code-point lexicographic order on character lists (Python string
comparison). -/
def lexLe : List Char → List Char → Bool
  | [], _ => true
  | _ :: _, [] => false
  | a :: as, b :: bs =>
    if a.toNat < b.toNat then true
    else if a.toNat = b.toNat then lexLe as bs else false

def strLe (a b : String) : Bool := lexLe a.data b.data

/-- `sorted(...)` on group member names. -/
def sortedNames (names : List String) : List String :=
  List.insertionSort (fun a b => strLe a b = true) names

/-- `re.match(r"data_\d+$", name)`. -/
def isDataNameL : List Char → Bool
  | 'd' :: 'a' :: 't' :: 'a' :: '_' :: rest => rest ≠ [] && rest.all Char.isDigit
  | _ => false

def isDataName (s : String) : Bool := isDataNameL s.data

/-- `Path.parent`: everything before the final path separator. -/
def dirnameL : List Char → List Char
  | [] => []
  | c :: cs => if ('/' : Char) ∈ cs then c :: dirnameL cs else []

def dirname (p : String) : String := String.mk (dirnameL p.data)

/-- `Path.name`: the final path component. -/
def baseNameL : List Char → List Char
  | [] => []
  | c :: cs =>
    if ('/' : Char) ∈ cs then baseNameL cs
    else if c = '/' then cs else c :: cs

def baseName (p : String) : String := String.mk (baseNameL p.data)

/-- The dataset names matched by the naming pattern, in sorted order: the
enumeration order of `find_hdf5_images`. -/
def datasetNames (data : List (String × H5Entry)) : List String :=
  (sortedNames (data.map Prod.fst)).filter isDataName

/-- `find_hdf5_images`: enumerate `/entry/data` members matching the naming
pattern in name-sorted order and resolve each to
`(physical file, object path, frame count)`; external links resolve
relative to the master's directory, internal datasets to the master file
itself with their own path. -/
def find_hdf5_images (masterPath : String) (data : List (String × H5Entry)) :
    List (String × String × ℕ) :=
  (datasetNames data).filterMap (fun name =>
    match data.lookup name with
    | some (.externalLink fn op n) => some (dirname masterPath ++ "/" ++ fn, op, n)
    | some (.internal n) => some (masterPath, "/entry/data/" ++ name, n)
    | none => none)

/-- The location descriptors built from the command line: `ArchiveUrl`,
`DirectoryUrl` or `PlaceholderUrl`. -/
inductive UrlLoc where
  | archiveUrl (url : String) (dir : String) (archiveType : String)
  | directoryUrl (urlBase : String)
  | placeholderUrl
deriving DecidableEq, Repr

/-- The fields contributed by a location's `cif_fields`. -/
structure CifFields where
  uri : Option String
  archiveFormat : Option String
  archivePathTemplate : Option String
  uriTemplate : Option String
deriving DecidableEq, Repr

/-- Drop a literal prefix, or fail. -/
def stripPre : List Char → List Char → Option (List Char)
  | [], r => some r
  | _ :: _, [] => none
  | a :: as, b :: bs => if a = b then stripPre as bs else none

/-- `Path.relative_to`: `p` relative to the directory `dir` (fails when `p`
is not below `dir`). -/
def relativeTo (p dir : String) : Option String :=
  (stripPre (dir.data ++ ['/']) p.data).map String.mk

/-- `str.rstrip('/')`. -/
def rstripSlash (s : String) : String :=
  String.mk ((s.data.reverse.dropWhile (fun c => c = '/')).reverse)

/-- `cif_fields` of a location applied to a template path. -/
def cifFields (loc : UrlLoc) (templatePath : String) : Except Err CifFields :=
  match loc with
  | .archiveUrl url dir atype =>
    match relativeTo templatePath dir with
    | some rel => .ok { uri := some url, archiveFormat := some atype,
                        archivePathTemplate := some rel, uriTemplate := none }
    | none => .error (.valueError "path is not relative to the archive directory")
  | .directoryUrl base =>
    .ok { uri := none, archiveFormat := none, archivePathTemplate := none,
          uriTemplate := some (rstripSlash base ++ "/" ++ baseName templatePath) }
  | .placeholderUrl =>
    .ok { uri := none, archiveFormat := none, archivePathTemplate := none,
          uriTemplate := some "????" }

def endsWith (s suf : String) : Bool := suf.data.isSuffixOf s.data

/-- `guess_file_type` on the template's file name (SMV is recognized through
the dxtbx reader class). -/
def guess_file_type (name : String) (isSMV : Bool) : String :=
  if isSMV then "SMV"
  else if endsWith name ".cbf" then "CBF"
  else if endsWith name ".h5" || endsWith name ".nxs" then "HDF5"
  else if endsWith name ".tif" then "TIFF"
  else "???"

/-- The image-file info dictionary appended to `ext_info` for one physical
file (or one non-HDF5 scan). -/
structure ExtInfo where
  fmt : String
  numFrames : ℕ
  dsPath : Option String
  singleFile : Bool
  fields : CifFields
deriving DecidableEq, Repr

/-- The resolved file format for one scan: the explicit override or the
guess from the template name. -/
def fmtOf (e : Expt) (fileType : Option String) : String :=
  fileType.getD (guess_file_type (baseName e.imageTemplate) e.isSMVFormat)

/-- The `ext_info` entries contributed by one scan: for HDF5, one entry per
dataset of the master (in enumeration order) with that file's frame count,
fatally checked against the scan's declared total; otherwise one entry for
the whole scan. -/
def extForScan (e : Expt) (loc : UrlLoc) (fileType : Option String) :
    Except Err (List ExtInfo) :=
  if fmtOf e fileType = "HDF5" then
    match mapExcept (fun fon =>
        match cifFields loc fon.1 with
        | .ok cf => Except.ok (ExtInfo.mk (fmtOf e fileType) fon.2.2 (some fon.2.1) true cf)
        | .error er => Except.error er)
        (find_hdf5_images e.imageTemplate e.h5Data) with
    | .error er => .error er
    | .ok infos =>
      if ((find_hdf5_images e.imageTemplate e.h5Data).map
          (fun fon => fon.2.2)).sum = e.scan.numImages then .ok infos
      else .error (.assertionError
        (toString ((find_hdf5_images e.imageTemplate e.h5Data).map
          (fun fon => fon.2.2)).sum ++ " != " ++ toString e.scan.numImages))
  else
    match cifFields loc e.imageTemplate with
    | .ok cf => .ok [ExtInfo.mk (fmtOf e fileType) e.scan.numImages none
        e.hasSingleFileReader cf]
    | .error er => .error er

def genExtAux (fileType : Option String) : List (Expt × UrlLoc) → Except Err (List ExtInfo)
  | [] => .ok []
  | (e, loc) :: rest =>
    match extForScan e loc fileType with
    | .error er => .error er
    | .ok infos =>
      match genExtAux fileType rest with
      | .error er => .error er
      | .ok more => .ok (infos ++ more)

/-- `gen_external_locations`: a single location descriptor is broadcast to
all scans (`locations *= n_scans`), a matching count pairs positionally,
any other count raises a ValueError. -/
def gen_external_locations (expts : List Expt) (locations : List UrlLoc)
    (fileType : Option String) : Except Err (List ExtInfo) :=
  if locations.length = 1 then
    genExtAux fileType (expts.zip (List.flatten (List.replicate expts.length locations)))
  else if locations.length ≠ expts.length then
    .error (.valueError ("Got " ++ toString locations.length ++
      " download locations; expected 1 or 1 per scan (" ++
      toString expts.length ++ ")"))
  else
    genExtAux fileType (expts.zip locations)

/-- One row of the `_array_data_external_data` table.  The field list of the
emitted loop is chosen from the first entry in the source; each row carries
the fields its own entry provides. -/
structure ExtRow where
  id : ℕ
  fmt : String
  uri : String
  archiveFormat : Option String
  archivePath : Option String
  dsPath : Option String
  frame : Option ℕ
deriving DecidableEq, Repr

inductive ExtOut where
  | row (r : ExtRow)
  | cutMarker (n : ℕ)
deriving DecidableEq, Repr

/-- The row written for intra-file frame `frIx` (1-based) of one entry with
global id `counter`: templates are resolved through `encode_scan_step`. -/
def extRowFor (extf : ExtInfo) (frIx : ℕ) (counter : ℕ) : ExtRow :=
  { id := counter, fmt := extf.fmt,
    uri := match extf.fields.uriTemplate with
      | some t => encode_scan_step t frIx
      | none => extf.fields.uri.getD "",
    archiveFormat := extf.fields.archiveFormat,
    archivePath := match extf.fields.archiveFormat with
      | some _ => extf.fields.archivePathTemplate.map (fun t => encode_scan_step t frIx)
      | none => none,
    dsPath := if extf.fmt = "HDF5" then extf.dsPath else none,
    frame := if extf.singleFile then some frIx else none }

def extOutAux : List ExtInfo → Option ℕ → ℕ → List ExtOut
  | [], _, _ => []
  | extf :: rest, limit, counter =>
    ((List.range (limitedCount extf.numFrames limit)).map (fun i =>
      .row (extRowFor extf (i+1) (counter + i)))) ++
    (if 0 < cutCount extf.numFrames limit then
      [.cutMarker (cutCount extf.numFrames limit)] else []) ++
    extOutAux rest limit (counter + limitedCount extf.numFrames limit)

/-- `write_external_locations`: per entry, one row per (truncated) frame,
with the global row counter advanced only by emitted rows. -/
def write_external_locations (extInfo : List ExtInfo) (limit : Option ℕ) :
    List ExtOut :=
  extOutAux extInfo limit 1

/-! ## `make_cif`: the output pipeline

The file contents are modelled as an ordered list of blocks, one per table
(or header) written to the output stream; `make_cif` returns the blocks
written and the error that aborted it, if any. -/

inductive Block where
  | header (dataName : String)
  | doiBlock (doi : String)
  | beam (wavelength : ℚ)
  | axisTable (g : List (String × GonAxisInfo)) (d : DetAxes)
      (s : List (String × SrfAxis))
  | arrayInfo (detName : String) (nElems : ℕ) (overload : Option ℚ)
  | scanTable (rows : List ScanAxRow)
  | scanRanges (rows : List (String × ℕ × ℕ × ℕ))
  | frameTable (rows : List FrameRow)
  | frameImgTable (rows : List ImgRow)
  | arrayData (rows : List ArrRow)
  | extTable (rows : List ExtOut)
deriving DecidableEq, Repr

/-- `make_cif`: header, optional DOI, beam info (wavelength asserted equal
across scans), axis tables, array layout, scan settings, frame tables and
frame-image tables are all written BEFORE the external locations are
resolved; an exception raised by `gen_external_locations` therefore leaves
all earlier blocks already written to the output. -/
def make_cif (expts : List Expt) (dataName : String) (locations : List UrlLoc)
    (doi : Option String) (fileType : Option String) (overload : Option ℚ)
    (frameLimit : Option ℕ) : List Block × Option Err :=
  let b1 := [Block.header dataName] ++
    (match doi with | some d => [Block.doiBlock d] | none => [])
  match expts with
  | [] => (b1, some .indexError)
  | e0 :: rest =>
    if rest.all (fun e => decide (e.wavelength = e0.wavelength)) = false then
      (b1, some (.assertionError "wavelength varies between experiments"))
    else
      let b2 := b1 ++ [Block.beam e0.wavelength]
      match get_axes_info expts with
      | .error er => (b2, some er)
      | .ok gds =>
        let b3 := b2 ++ [Block.axisTable gds.1 gds.2.1 gds.2.2,
          Block.arrayInfo "DETECTOR" e0.detector.length overload,
          Block.scanTable (write_scan_info expts gds.1 gds.2.1),
          Block.scanRanges (scanRangeRows expts),
          Block.frameTable (frameRows expts frameLimit),
          Block.frameImgTable (imgRows expts frameLimit),
          Block.arrayData (arrayDataRows expts frameLimit)]
        match gen_external_locations expts locations fileType with
        | .error er => (b3, some er)
        | .ok extInfo =>
          (b3 ++ [Block.extTable (write_external_locations extInfo frameLimit)], none)

/-! ## Properties of `encode_scan_step` (claim C6) -/

theorem subHashA_cons_hash (n p : ℕ) (cs : List Char) :
    subHashA n p ('#' :: cs) = subHashA n (p+1) cs := rfl

theorem subHashA_cons_dot (n p : ℕ) (cs : List Char) :
    subHashA n p ('.' :: cs) =
      (if p = 0 then [] else padInt n p) ++ '.' :: subHashA n 0 cs := rfl

theorem subHashA_cons_other (n p : ℕ) (c : Char) (cs : List Char)
    (h1 : c ≠ '#') (h2 : c ≠ '.') :
    subHashA n p (c :: cs) = List.replicate p '#' ++ c :: subHashA n 0 cs := by
  show (if c = '#' then subHashA n (p+1) cs
    else if c = '.' then (if p = 0 then [] else padInt n p) ++ '.' :: subHashA n 0 cs
    else List.replicate p '#' ++ c :: subHashA n 0 cs) = _
  rw [if_neg h1, if_neg h2]

theorem subHashA_replicate (n : ℕ) :
    ∀ (m q : ℕ), subHashA n q (List.replicate m '#') = List.replicate (q + m) '#' := by
  intro m
  induction m with
  | zero => intro q; rfl
  | succ m ih =>
    intro q
    rw [List.replicate_succ, subHashA_cons_hash, ih (q+1)]
    congr 1
    omega

theorem subHashA_hashFree_append (n : ℕ) :
    ∀ (m r : List Char), '#' ∉ m → subHashA n 0 (m ++ r) = m ++ subHashA n 0 r := by
  intro m
  induction m with
  | nil => intro r _; rfl
  | cons c cs ih =>
    intro r hm
    have hc : c ≠ '#' := by
      intro hcon
      exact hm (by rw [hcon]; exact List.mem_cons_self _ _)
    have hcs : '#' ∉ cs := fun hcon => hm (List.mem_cons_of_mem _ hcon)
    by_cases hd : c = '.'
    · subst hd
      rw [List.cons_append, subHashA_cons_dot, if_pos rfl, List.nil_append,
        ih r hcs, List.cons_append]
    · rw [List.cons_append, subHashA_cons_other n 0 c _ hc hd,
        List.replicate_zero, List.nil_append, ih r hcs, List.cons_append]

theorem subHashA_hashFree (n : ℕ) (m : List Char) (h : '#' ∉ m) :
    subHashA n 0 m = m := by
  have h2 := subHashA_hashFree_append n m [] h
  rw [List.append_nil] at h2
  rw [h2]
  simp [subHashA]

theorem subHashA_run_dot (n : ℕ) :
    ∀ (k q : ℕ) (r : List Char),
      subHashA n q (List.replicate k '#' ++ '.' :: r) =
        (if q + k = 0 then [] else padInt n (q + k)) ++ '.' :: subHashA n 0 r := by
  intro k
  induction k with
  | zero =>
    intro q r
    rw [List.replicate_zero, List.nil_append, subHashA_cons_dot]
    rfl
  | succ k ih =>
    intro q r
    rw [List.replicate_succ, List.cons_append, subHashA_cons_hash, ih (q+1)]
    have h1 : q + 1 + k = q + (k + 1) := by omega
    rw [h1]

theorem subHashA_run_other (n : ℕ) :
    ∀ (k q : ℕ) (c : Char) (r : List Char), c ≠ '#' → c ≠ '.' →
      subHashA n q (List.replicate k '#' ++ c :: r) =
        List.replicate (q + k) '#' ++ c :: subHashA n 0 r := by
  intro k
  induction k with
  | zero =>
    intro q c r h1 h2
    rw [List.replicate_zero, List.nil_append, subHashA_cons_other n q c r h1 h2,
      Nat.add_zero]
  | succ k ih =>
    intro q c r h1 h2
    rw [List.replicate_succ, List.cons_append, subHashA_cons_hash, ih (q+1) c r h1 h2]
    have he : q + 1 + k = q + (k + 1) := by omega
    rw [he]

theorem digCh_ne_hash (d : ℕ) : digCh d ≠ '#' := by
  unfold digCh
  repeat' split
  all_goals decide

theorem mem_digitsAux : ∀ (fuel n : ℕ) (c : Char), c ∈ digitsAux fuel n →
    ∃ d, c = digCh d := by
  intro fuel
  induction fuel with
  | zero => intro n c h; simp [digitsAux] at h
  | succ f ih =>
    intro n c h
    rw [digitsAux] at h
    split at h
    · exact ⟨n, List.mem_singleton.mp h⟩
    · rcases List.mem_append.mp h with h1 | h2
      · exact ih _ _ h1
      · exact ⟨n % 10, List.mem_singleton.mp h2⟩

theorem hash_not_mem_padInt (n w : ℕ) : '#' ∉ padInt n w := by
  unfold padInt
  intro h
  rcases List.mem_append.mp h with h1 | h2
  · exact absurd (List.eq_of_mem_replicate h1) (by decide)
  · rcases mem_digitsAux _ _ _ h2 with ⟨d, hd⟩
    exact digCh_ne_hash d hd.symm

theorem subHashA_idem (n : ℕ) :
    ∀ (l : List Char) (p : ℕ), subHashA n 0 (subHashA n p l) = subHashA n p l := by
  intro l
  induction l with
  | nil =>
    intro p
    show subHashA n 0 (List.replicate p '#') = List.replicate p '#'
    rw [subHashA_replicate n p 0, Nat.zero_add]
  | cons c cs ih =>
    intro p
    by_cases hc : c = '#'
    · subst hc
      rw [subHashA_cons_hash]
      exact ih (p+1)
    · by_cases hd : c = '.'
      · subst hd
        rw [subHashA_cons_dot]
        have hX : '#' ∉ (if p = 0 then [] else padInt n p) := by
          split
          · simp
          · exact hash_not_mem_padInt n p
        rw [subHashA_hashFree_append n _ _ hX]
        congr 1
        rw [subHashA_cons_dot, if_pos rfl, List.nil_append, ih 0]
      · rw [subHashA_cons_other n p c cs hc hd,
          subHashA_run_other n p 0 c _ hc hd, Nat.zero_add, ih 0]

/-- `claim C6` counterexample: a run of `#` characters followed by a literal
suffix that does not begin with a dot is NOT a placeholder: the template is
returned unchanged instead of having the run replaced by the zero-padded
frame number. -/
theorem claim_C6_counterexample :
    encode_scan_step "a_##x" 5 = "a_##x" ∧ ("a_##x" : String) ≠ "a_05x" :=
  ⟨by decide, by decide⟩

/-- `claim C6` (amended) : a run of `#` characters immediately followed by a
literal dot is a zero-padded placeholder: resolving the template for frame
`n` replaces the run with `n` zero-padded to the run's width (the dot and
suffix kept); and re-encoding an already-resolved template with the same `n`
is the identity (idempotence). -/
theorem claim_C6 :
    (∀ (pre suf : String) (k n : ℕ), 1 ≤ k → '#' ∉ pre.data → '#' ∉ suf.data →
      encode_scan_step (pre ++ String.mk (List.replicate k '#') ++ "." ++ suf) n =
        pre ++ String.mk (padInt n k) ++ "." ++ suf) ∧
    (∀ t n, encode_scan_step (encode_scan_step t n) n = encode_scan_step t n) := by
  constructor
  · intro pre suf k n hk hpre hsuf
    unfold encode_scan_step
    have hdata : (pre ++ String.mk (List.replicate k '#') ++ "." ++ suf).data =
        pre.data ++ (List.replicate k '#' ++ '.' :: suf.data) := by
      simp [String.data_append, List.append_assoc]
    rw [hdata, subHashA_hashFree_append n _ _ hpre, subHashA_run_dot n k 0,
      subHashA_hashFree n _ hsuf, if_neg (by omega : ¬ (0 + k = 0)),
      show 0 + k = k from by omega]
    have hdata2 : (pre ++ String.mk (padInt n k) ++ "." ++ suf).data =
        pre.data ++ (padInt n k ++ '.' :: suf.data) := by
      simp [String.data_append, List.append_assoc]
    have hrhs : pre ++ String.mk (padInt n k) ++ "." ++ suf =
        String.mk (pre.data ++ (padInt n k ++ '.' :: suf.data)) := by
      conv_lhs => rw [show pre ++ String.mk (padInt n k) ++ "." ++ suf =
        String.mk ((pre ++ String.mk (padInt n k) ++ "." ++ suf).data) from rfl]
      rw [hdata2]
    rw [hrhs]
  · intro t n
    unfold encode_scan_step
    show String.mk (subHashA n 0 (String.mk (subHashA n 0 t.data)).data) = _
    exact congrArg String.mk (subHashA_idem n t.data 0)

theorem claim_C6_witness :
    encode_scan_step "01_#####.cbf" 123 = "01_00123.cbf" ∧
    encode_scan_step (encode_scan_step "01_#####.cbf" 123) 123 =
      encode_scan_step "01_#####.cbf" 123 := by
  constructor
  · have h := claim_C6.1 "01_" "cbf" 5 123 (by decide) (by decide) (by decide)
    have e1 : ("01_" ++ String.mk (List.replicate 5 '#') ++ "." ++ "cbf") =
        "01_#####.cbf" := by decide
    have e2 : ("01_" ++ String.mk (padInt 123 5) ++ "." ++ "cbf") =
        "01_00123.cbf" := by decide
    rw [← e1, h, e2]
  · exact claim_C6.2 "01_#####.cbf" 123

/-! ## Claim C4: HDF5 dataset enumeration and frame-count checking -/

theorem lexLe_total : ∀ a b : List Char, lexLe a b = true ∨ lexLe b a = true := by
  intro a
  induction a with
  | nil => intro b; left; rfl
  | cons x xs ih =>
    intro b
    cases b with
    | nil => right; rfl
    | cons y ys =>
      rcases Nat.lt_trichotomy x.toNat y.toNat with h | h | h
      · left; simp [lexLe, h]
      · have hnlt : ¬ x.toNat < y.toNat := by omega
        have hnlt' : ¬ y.toNat < x.toNat := by omega
        rcases ih ys with h2 | h2
        · left; simp [lexLe, hnlt, h, h2]
        · right; simp [lexLe, hnlt', h.symm, h2]
      · right; simp [lexLe, h]

theorem lexLe_trans : ∀ a b c : List Char,
    lexLe a b = true → lexLe b c = true → lexLe a c = true := by
  intro a
  induction a with
  | nil => intro b c _ _; rfl
  | cons x xs ih =>
    intro b c hab hbc
    cases b with
    | nil => simp [lexLe] at hab
    | cons y ys =>
      cases c with
      | nil => simp [lexLe] at hbc
      | cons z zs =>
        by_cases hxy : x.toNat < y.toNat
        · by_cases hyz : y.toNat < z.toNat
          · have h : x.toNat < z.toNat := by omega
            simp [lexLe, h]
          · by_cases heyz : y.toNat = z.toNat
            · have h : x.toNat < z.toNat := by omega
              simp [lexLe, h]
            · simp [lexLe, hyz, heyz] at hbc
        · by_cases hexy : x.toNat = y.toNat
          · have hab' : lexLe xs ys = true := by
              simpa [lexLe, hxy, hexy] using hab
            by_cases hyz : y.toNat < z.toNat
            · have h : x.toNat < z.toNat := by omega
              simp [lexLe, h]
            · by_cases heyz : y.toNat = z.toNat
              · have hbc' : lexLe ys zs = true := by
                  simpa [lexLe, hyz, heyz] using hbc
                have hn : ¬ x.toNat < z.toNat := by omega
                have he : x.toNat = z.toNat := by omega
                simp [lexLe, hn, he, ih ys zs hab' hbc']
              · simp [lexLe, hyz, heyz] at hbc
          · simp [lexLe, hxy, hexy] at hab

instance : IsTotal String (fun a b => strLe a b = true) :=
  ⟨fun a b => lexLe_total a.data b.data⟩

instance : IsTrans String (fun a b => strLe a b = true) :=
  ⟨fun a b c => lexLe_trans a.data b.data c.data⟩

theorem datasetNames_sorted (data : List (String × H5Entry)) :
    (datasetNames data).Pairwise (fun a b => strLe a b = true) :=
  List.Pairwise.filter _ (List.sorted_insertionSort _ (data.map Prod.fst))

theorem mapExcept_ok_rel {α β γ : Type} {f : α → Except Err β} {g : α → γ}
    {gb : β → γ} (hcomp : ∀ a b, f a = .ok b → gb b = g a) :
    ∀ {l : List α} {bs : List β}, mapExcept f l = .ok bs → bs.map gb = l.map g := by
  intro l
  induction l with
  | nil =>
    intro bs h
    simp only [mapExcept] at h
    cases h
    rfl
  | cons a as ih =>
    intro bs h
    simp only [mapExcept] at h
    split at h
    · cases h
    · next b hb =>
      split at h
      · cases h
      · next bs' hbs' =>
        cases h
        rw [List.map_cons, List.map_cons, hcomp a b hb, ih hbs']

/-- The two-file HDF5 example: a master with datasets of 1000 and 600 frames
in two external files (member names deliberately listed unsorted), declared
total 1600, shared archive URL. -/
def h5MasterData : List (String × H5Entry) :=
  [("data_000002", .externalLink "FJ_2.h5" "/data" 600),
   ("data_000001", .externalLink "FJ_1.h5" "/data" 1000)]

def h5Expt : Expt :=
  { goniometer := .singleAxis ⟨0,1,0⟩, detector := [examplePanel],
    scan := { oscStart := 0, oscStep := 1, numImages := 1600, exposureTimes := [] },
    wavelength := 1, imageTemplate := "FJ/master.h5", isSMVFormat := false,
    hasSingleFileReader := false, h5Data := h5MasterData }

def h5Loc : UrlLoc := .archiveUrl "https://zen.example/FJ.zip" "FJ" "ZIP"

def h5Info1 : ExtInfo :=
  ExtInfo.mk "HDF5" 1000 (some "/data") true
    ⟨some "https://zen.example/FJ.zip", some "ZIP", some "FJ_1.h5", none⟩

def h5Info2 : ExtInfo :=
  ExtInfo.mk "HDF5" 600 (some "/data") true
    ⟨some "https://zen.example/FJ.zip", some "ZIP", some "FJ_2.h5", none⟩

def isExtRow : ExtOut → Bool
  | .row _ => true
  | .cutMarker _ => false

theorem extOutAux_rowCount :
    ∀ (extInfo : List ExtInfo) (limit : Option ℕ) (counter : ℕ),
      ((extOutAux extInfo limit counter).filter isExtRow).length =
        (extInfo.map (fun i => limitedCount i.numFrames limit)).sum := by
  intro extInfo
  induction extInfo with
  | nil => intro limit counter; rfl
  | cons extf rest ih =>
    intro limit counter
    rw [extOutAux, List.filter_append, List.filter_append, List.length_append,
      List.length_append, List.filter_map, List.map_cons, List.sum_cons, ih]
    have h1 : ((List.range (limitedCount extf.numFrames limit)).filter
        (isExtRow ∘ fun i => ExtOut.row (extRowFor extf (i+1) (counter + i)))) =
        List.range (limitedCount extf.numFrames limit) := by
      apply List.filter_eq_self.mpr
      intro a _
      rfl
    have h2 : ((if 0 < cutCount extf.numFrames limit then
        [ExtOut.cutMarker (cutCount extf.numFrames limit)] else []).filter
          isExtRow).length = 0 := by
      split <;> rfl
    rw [h1, h2, List.length_map, List.length_range]
    omega

theorem extOutAux_single_getLast (extf : ExtInfo) (counter : ℕ)
    (h : 1 ≤ extf.numFrames) :
    (extOutAux [extf] none counter).getLast? =
      some (.row (extRowFor extf extf.numFrames (counter + extf.numFrames - 1))) := by
  rcases Nat.exists_eq_add_of_le h with ⟨m, hm⟩
  rw [extOutAux]
  have hcut : cutCount extf.numFrames none = 0 := rfl
  have hlim : limitedCount extf.numFrames none = extf.numFrames := rfl
  rw [hcut, hlim, if_neg (Nat.lt_irrefl 0),
    show extOutAux ([] : List ExtInfo) none (counter + extf.numFrames) = [] from rfl,
    List.append_nil, List.append_nil]
  have hn : extf.numFrames = m + 1 := by omega
  rw [hn, List.range_succ, List.map_append, List.map_cons, List.map_nil,
    List.getLast?_concat]
  have harith : counter + (m + 1) - 1 = counter + m := by omega
  rw [harith]

/-- `claim C4` : (i) the dataset names enumerated by `find_hdf5_images` (the
members of `/entry/data` matching the fixed pattern) are in name-sorted
order; (ii) whenever the HDF5 branch of the resolver succeeds, it has
emitted one row group per resolved dataset carrying that file's frame count
and object path, and the counts sum to the scan's declared total; (iii) a
sum mismatch is fatal (the branch cannot succeed); (iv) on the concrete
two-file master with counts [1000, 600], resolution succeeds with exactly
those two groups, the external-data table has 1600 rows, and its last row
has intra-file frame index 600. -/
theorem claim_C4 :
    (∀ data : List (String × H5Entry),
      (datasetNames data).Pairwise (fun a b => strLe a b = true)) ∧
    (∀ e loc ft infos, fmtOf e ft = "HDF5" → extForScan e loc ft = .ok infos →
      ((find_hdf5_images e.imageTemplate e.h5Data).map (fun fon => fon.2.2)).sum =
        e.scan.numImages ∧
      infos.map ExtInfo.numFrames =
        (find_hdf5_images e.imageTemplate e.h5Data).map (fun fon => fon.2.2) ∧
      infos.map ExtInfo.dsPath =
        (find_hdf5_images e.imageTemplate e.h5Data).map (fun fon => some fon.2.1)) ∧
    (∀ e loc ft, fmtOf e ft = "HDF5" →
      ((find_hdf5_images e.imageTemplate e.h5Data).map (fun fon => fon.2.2)).sum ≠
        e.scan.numImages →
      ∃ er, extForScan e loc ft = .error er) ∧
    (gen_external_locations [h5Expt] [h5Loc] none = .ok [h5Info1, h5Info2] ∧
      ((write_external_locations [h5Info1, h5Info2] none).filter isExtRow).length =
        1600 ∧
      (write_external_locations [h5Info1, h5Info2] none).getLast? =
        some (.row (extRowFor h5Info2 600 1600)) ∧
      (extRowFor h5Info2 600 1600).frame = some 600) := by
  refine ⟨datasetNames_sorted, ?_, ?_, ?_, ?_, ?_, ?_⟩
  · intro e loc ft infos hfmt hok
    unfold extForScan at hok
    rw [if_pos hfmt] at hok
    split at hok
    · cases hok
    · next infos0 hmap =>
      split at hok
      · next hsum =>
        cases hok
        have hnum : infos.map ExtInfo.numFrames =
            (find_hdf5_images e.imageTemplate e.h5Data).map (fun fon => fon.2.2) := by
          refine mapExcept_ok_rel (fun fon b hb => ?_) hmap
          split at hb
          · cases hb; rfl
          · cases hb
        have hpath : infos.map ExtInfo.dsPath =
            (find_hdf5_images e.imageTemplate e.h5Data).map (fun fon => some fon.2.1) := by
          refine mapExcept_ok_rel (fun fon b hb => ?_) hmap
          split at hb
          · cases hb; rfl
          · cases hb
        exact ⟨hsum, hnum, hpath⟩
      · cases hok
  · intro e loc ft hfmt hsum
    unfold extForScan
    rw [if_pos hfmt]
    split
    · next er hmap => exact ⟨er, rfl⟩
    · next infos0 hmap =>
      rw [if_neg hsum]
      exact ⟨_, rfl⟩
  · rfl
  · rw [show write_external_locations [h5Info1, h5Info2] none =
        extOutAux [h5Info1, h5Info2] none 1 from rfl, extOutAux_rowCount]
    decide
  · rw [show write_external_locations [h5Info1, h5Info2] none =
        extOutAux [h5Info1, h5Info2] none 1 from rfl]
    rw [extOutAux]
    rw [List.getLast?_append]
    have hz : (extOutAux [h5Info2] none
        (1 + limitedCount h5Info1.numFrames none)).getLast? =
        some (.row (extRowFor h5Info2 600 1600)) := by
      have h := extOutAux_single_getLast h5Info2 1001 (by norm_num [h5Info2])
      rw [show (1 : ℕ) + limitedCount h5Info1.numFrames none = 1001 from rfl]
      rw [h]
      rfl
    rw [hz]
    rfl
  · rfl

def h5BadScan : Scan := { oscStart := 0, oscStep := 1, numImages := 999, exposureTimes := [] }

def h5ExptBad : Expt := { h5Expt with scan := h5BadScan }

theorem claim_C4_witness :
    (((find_hdf5_images h5Expt.imageTemplate h5Expt.h5Data).map
        (fun fon => fon.2.2)).sum = h5Expt.scan.numImages ∧
      [h5Info1, h5Info2].map ExtInfo.numFrames =
        (find_hdf5_images h5Expt.imageTemplate h5Expt.h5Data).map
          (fun fon => fon.2.2) ∧
      [h5Info1, h5Info2].map ExtInfo.dsPath =
        (find_hdf5_images h5Expt.imageTemplate h5Expt.h5Data).map
          (fun fon => some fon.2.1)) ∧
    (∃ er, extForScan h5ExptBad h5Loc none = .error er) := by
  constructor
  · exact claim_C4.2.1 h5Expt h5Loc none [h5Info1, h5Info2] rfl rfl
  · exact claim_C4.2.2.1 h5ExptBad h5Loc none rfl (by decide)

/-! ## Claim C5: location-count policy and error-versus-output ordering -/

theorem zip_replicate_single {α β : Type} (l0 : β) :
    ∀ (es : List α), es.zip (List.flatten (List.replicate es.length [l0])) =
      es.map (fun e => (e, l0)) := by
  intro es
  induction es with
  | nil => rfl
  | cons e es ih =>
    rw [List.length_cons, List.replicate_succ, List.flatten_cons,
      List.singleton_append, List.zip_cons_cons, List.map_cons, ih]

/-- `claim C5` (amended) : a single supplied location descriptor is
broadcast to every scan; a descriptor count equal to the scan count pairs
positionally; any other count raises a fatal ValueError from
`gen_external_locations`.  The error is raised by `make_cif` only AFTER the
header, beam, axis, scan and frame blocks are written: the first output
block always exists (the header), for erroring runs too. -/
theorem claim_C5 :
    (∀ (expts : List Expt) (l0 : UrlLoc) (ft : Option String),
      gen_external_locations expts [l0] ft =
        genExtAux ft (expts.map (fun e => (e, l0)))) ∧
    (∀ expts locs ft, locs.length = expts.length →
      gen_external_locations expts locs ft = genExtAux ft (expts.zip locs)) ∧
    (∀ expts locs ft, locs.length ≠ 1 → locs.length ≠ expts.length →
      ∃ msg, gen_external_locations expts locs ft = .error (.valueError msg)) ∧
    (∀ expts dataName locs doi ft ov lim,
      (make_cif expts dataName locs doi ft ov lim).1.head? =
        some (Block.header dataName)) := by
  refine ⟨?_, ?_, ?_, ?_⟩
  · intro expts l0 ft
    unfold gen_external_locations
    rw [if_pos (by rfl), zip_replicate_single]
  · intro expts locs ft hlen
    unfold gen_external_locations
    by_cases h1 : locs.length = 1
    · rw [if_pos h1]
      rcases List.length_eq_one.mp h1 with ⟨l0, rfl⟩
      rw [zip_replicate_single]
      have h2 : expts.length = 1 := by
        rw [← hlen]; exact h1
      rcases List.length_eq_one.mp h2 with ⟨e0, rfl⟩
      rfl
    · rw [if_neg h1, if_neg (fun hne => hne hlen)]
  · intro expts locs ft h1 h2
    unfold gen_external_locations
    rw [if_neg h1, if_pos h2]
    exact ⟨_, rfl⟩
  · intro expts dataName locs doi ft ov lim
    unfold make_cif
    rcases doi with _ | d <;> rcases expts with _ | ⟨e0, rest⟩
    all_goals repeat' split
    all_goals rfl

def cexExpts3 : List Expt := [exampleExpt, exampleExpt, exampleExpt]

def cexLocs2 : List UrlLoc :=
  [.directoryUrl "https://a.example/d", .directoryUrl "https://b.example/d"]

theorem cex_det3 : get_det_axes cexExpts3 exampleRot =
    .ok { twoTheta := none, transVals := [150, 150, 150] } := by
  have hdet : exampleExpt.detector = [examplePanel] := rfl
  simp only [cexExpts3, get_det_axes, hdet, example_perp, mapExcept,
    example_tth, List.get?, example_dist, firstRotated, Option.map_none']

theorem cex_srf3 : get_srf_axes cexExpts3 exampleRot = .ok exampleSrf := by
  have hdet : exampleExpt.detector = [examplePanel] := rfl
  have h1 : get_srf_axes cexExpts3 exampleRot =
      get_srf_axes [exampleExpt] exampleRot := by
    simp only [cexExpts3, get_srf_axes, hdet, example_tth]
    rw [if_pos (by decide), if_pos (by decide)]
  rw [h1, example_srf]

theorem cex_axes3 : get_axes_info cexExpts3 =
    .ok ([(gonioDefaultAxis, { axis := e1, vals := none, next := "." })],
         { twoTheta := none, transVals := [150, 150, 150] }, exampleSrf) := by
  have hgon : get_gon_axes cexExpts3 =
      .ok [(gonioDefaultAxis, ⟨⟨0,1,0⟩, none, "."⟩)] := rfl
  simp only [get_axes_info, hgon, example_check, example_frameRot, cex_det3,
    cex_srf3, rotateGonAxes, List.map]
  simp only [mulVec, dot, exampleRot, e1, Vec3.mk.injEq, Prod.mk.injEq,
    GonAxisInfo.mk.injEq]
  norm_num

/-- `claim C5` counterexample: a batch of 3 scans with 2 supplied location
descriptors DOES raise the fatal configuration error, but only after the
header, beam, axis, array, scan and frame blocks (9 blocks) have been
written to the output, contradicting "before any output is written". -/
theorem claim_C5_counterexample :
    (make_cif cexExpts3 "result" cexLocs2 none none none none).2.isSome = true ∧
    (make_cif cexExpts3 "result" cexLocs2 none none none none).1.length = 9 ∧
    (make_cif cexExpts3 "result" cexLocs2 none none none none).1.head? =
      some (Block.header "result") := by
  have hmc : make_cif cexExpts3 "result" cexLocs2 none none none none =
      ([Block.header "result", Block.beam 1,
        Block.axisTable [(gonioDefaultAxis, { axis := e1, vals := none, next := "." })]
          { twoTheta := none, transVals := [150, 150, 150] } exampleSrf,
        Block.arrayInfo "DETECTOR" 1 none,
        Block.scanTable (write_scan_info cexExpts3
          [(gonioDefaultAxis, { axis := e1, vals := none, next := "." })]
          { twoTheta := none, transVals := [150, 150, 150] }),
        Block.scanRanges (scanRangeRows cexExpts3),
        Block.frameTable (frameRows cexExpts3 none),
        Block.frameImgTable (imgRows cexExpts3 none),
        Block.arrayData (arrayDataRows cexExpts3 none)],
       some (.valueError ("Got " ++ toString cexLocs2.length ++
         " download locations; expected 1 or 1 per scan (" ++
         toString cexExpts3.length ++ ")"))) := by
    rw [show cexExpts3 = exampleExpt :: [exampleExpt, exampleExpt] from rfl]
    rw [make_cif]
    rw [if_neg (by decide)]
    rw [show get_axes_info (exampleExpt :: [exampleExpt, exampleExpt]) =
      get_axes_info cexExpts3 from rfl, cex_axes3]
    rw [show gen_external_locations (exampleExpt :: [exampleExpt, exampleExpt])
      cexLocs2 none = gen_external_locations cexExpts3 cexLocs2 none from rfl]
    rw [show gen_external_locations cexExpts3 cexLocs2 none =
      .error (.valueError ("Got " ++ toString cexLocs2.length ++
        " download locations; expected 1 or 1 per scan (" ++
        toString cexExpts3.length ++ ")")) from rfl]
    rfl
  rw [hmc]
  exact ⟨rfl, rfl, rfl⟩

theorem claim_C5_witness :
    (gen_external_locations cexExpts3 cexLocs2 none =
      genExtAux none (cexExpts3.zip cexLocs2) ∨
      ∃ msg, gen_external_locations cexExpts3 cexLocs2 none =
        .error (.valueError msg)) ∧
    (make_cif cexExpts3 "result" cexLocs2 none none none none).1.head? =
      some (Block.header "result") := by
  constructor
  · right
    exact claim_C5.2.2.1 cexExpts3 cexLocs2 none (by decide) (by decide)
  · exact claim_C5.2.2.2 cexExpts3 "result" cexLocs2 none none none none

end DialsToImgcif
